import Mathlib

/-!
Verification of the transfer-function model of the `volymrendering` repository.

The development shallowly embeds the algorithmic core of the repository:

* `base_transfer_function.py` — the control-point curve (`add_point`,
  `remove_point`, `update_point`, `_sort_points_with_colors`), modelled over
  exact rationals (Python floats idealized as ℚ; the code only uses field
  operations and comparisons on them).
* `widget_factory.py` — the five parametric widget kinds and their
  `calculate_opacity` functions, modelled over ℝ (the Gaussian and Ellipsoid
  kinds use `exp`/`sqrt`-style transcendental operations).
* `unified_tf_canvas.py` — `calculate_combined_opacity` (blend-mode
  reduction) and `sample_for_vtk_data_driven` (the data-driven LUT sampler,
  with the `np.random.choice` index draw made an explicit input).
* `transfer_function_plot.py` — the linear/log coordinate transform.
-/

namespace Volym

/-! ## Control-point curve (`base_transfer_function.py`)

A control point is `(position, opacity, color)`; the Python code keeps three
parallel lists `points_x`, `points_y`, `colors` that are always zipped,
sorted together by x, and unzipped (`_sort_points_with_colors`), so a single
list of triples is an exact model.  Python's `sorted(..., key=lambda p: p[0])`
is a stable sort by position; the output of a stable sort is uniquely
determined by the input, so Mathlib's (stable) `List.insertionSort` computes
exactly the same list. -/

/-- RGB color triple, channels as exact rationals. -/
abbrev QColor := ℚ × ℚ × ℚ

/-- A control point `(position, opacity, color)`. -/
abbrev CurvePoint := ℚ × ℚ × QColor

/-- Comparison on control points used by `_sort_points_with_colors`:
`key=lambda p: p[0]` — compare by position only. -/
def posLe (p q : CurvePoint) : Prop := p.1 ≤ q.1

instance : DecidableRel posLe := fun p q => inferInstanceAs (Decidable (p.1 ≤ q.1))

instance : IsTotal CurvePoint posLe := ⟨fun a b => le_total a.1 b.1⟩

instance : IsTrans CurvePoint posLe := ⟨fun _ _ _ h h₂ => le_trans h h₂⟩

/-- `BaseTransferFunction._sort_points_with_colors`: stable sort of the
zipped `(x, y, color)` triples by x. -/
def sort_points_with_colors (l : List CurvePoint) : List CurvePoint :=
  List.insertionSort posLe l

/-- `BaseTransferFunction.add_point`: append the new point, then re-sort.
The Python method performs no clamping of `x` or `y`. -/
def add_point (l : List CurvePoint) (x y : ℚ) (color : QColor) : List CurvePoint :=
  sort_points_with_colors (l ++ [(x, y, color)])

/-- `BaseTransferFunction.remove_point`: pop index `i` only when
`0 <= index < len(points_x)` and `index not in (0, len(points_x)-1)`;
otherwise the call does nothing. -/
def remove_point (l : List CurvePoint) (i : ℤ) : List CurvePoint :=
  if 0 ≤ i ∧ i < (l.length : ℤ) ∧ i ≠ 0 ∧ i ≠ (l.length : ℤ) - 1 then
    l.eraseIdx i.toNat
  else l

/-- `BaseTransferFunction.update_point`: when `0 <= index < len(points_x)`,
overwrite position and opacity at `index` (endpoints have their position
forced to `0.0` resp. `255.0`), keep the color, then re-sort. -/
def update_point (l : List CurvePoint) (i : ℤ) (x y : ℚ) : List CurvePoint :=
  if 0 ≤ i ∧ i < (l.length : ℤ) then
    let x' : ℚ := if i = 0 then 0 else if i = (l.length : ℤ) - 1 then 255 else x
    let c : QColor := (l.getD i.toNat (0, 0, (1, 1, 1))).2.2
    sort_points_with_colors (l.set i.toNat (x', y, c))
  else l

/-- The position list (the Python `points_x`). -/
def positions (l : List CurvePoint) : List ℚ := l.map fun p => p.1

/-- The curve invariant of the spec: positions sorted non-decreasingly,
first position exactly `0`, last position exactly `255`. -/
def goodCurve (l : List CurvePoint) : Prop :=
  List.Sorted (· ≤ ·) (positions l) ∧
    (positions l).head? = some 0 ∧ (positions l).getLast? = some 255

instance : DecidablePred goodCurve := fun l =>
  inferInstanceAs (Decidable (List.Sorted (· ≤ ·) (positions l) ∧
    (positions l).head? = some 0 ∧ (positions l).getLast? = some 255))

/-- One editing operation on the curve, as dispatched by the mouse handlers. -/
inductive CurveOp : Type
  | add (x y : ℚ) (color : QColor)
  | remove (i : ℤ)
  | move (i : ℤ) (x y : ℚ)

/-- Apply one operation to the current point list. -/
def applyOp (l : List CurvePoint) : CurveOp → List CurvePoint
  | .add x y color => add_point l x y color
  | .remove i => remove_point l i
  | .move i x y => update_point l i x y

/-- The requested position of an `add`/`move` lies in the domain `[0, 255]`
(this is how the edit state machine always calls them: `on_press`/`on_motion`
clip with `np.clip(x_data, 0.0, 255.0)` before calling). -/
def opInRange : CurveOp → Prop
  | .add x _ _ => 0 ≤ x ∧ x ≤ 255
  | .remove _ => True
  | .move _ x _ => 0 ≤ x ∧ x ≤ 255

instance : DecidablePred opInRange := fun op => by
  cases op <;> unfold opInRange <;> infer_instance

/-- The default white color `(1.0, 1.0, 1.0)` used by `add_point`. -/
def whiteQ : QColor := (1, 1, 1)

/-- Concrete fixture: the default two-point flat curve pinned at 0 and 255. -/
def demoCurve : List CurvePoint := [(0, 0, whiteQ), (255, 1, whiteQ)]

/-- Concrete fixture: a three-point curve pinned at 0 and 255. -/
def demoCurve3 : List CurvePoint := [(0, 0, whiteQ), (10, 1, whiteQ), (255, 1, whiteQ)]

/-! ## Parametric widgets (`widget_factory.py`)

Python floats are idealized as ℝ (the Gaussian and Ellipsoid kinds use
`np.exp` and `** 0.5`).  `blend_mode` and `direction` are strings in the
source, always read through equality checks with an `else` default; the
constructors `other` model any string that is none of the named ones and
behave as the default branch (`max` resp. `symmetric`). -/

/-- RGB color triple of floats. -/
abbrev RColor := ℝ × ℝ × ℝ

/-- Blend mode string: `'max' | 'add' | 'multiply'`; `other` stands for any
further value, which the compositing `else` branch treats like `'max'`. -/
inductive BlendMode : Type
  | max
  | add
  | multiply
  | other

/-- Triangular direction string: `'up' | 'down' | 'symmetric'`; `other`
stands for any further value, which the `else` branch treats like
`'symmetric'`. -/
inductive TriDirection : Type
  | up
  | down
  | symmetric
  | other

/-- The shared attributes of `TFWidget.__init__` (the UI-only `selected`
flag is omitted). -/
structure WidgetBase : Type where
  center_intensity : ℝ
  center_gradient : ℝ
  opacity : ℝ
  color : RColor
  blend_mode : BlendMode

/-- The five widget kinds (closed set) with their kind-specific shape
parameters, exactly the fields of the five subclasses. -/
inductive TFWidget : Type
  | gaussian (base : WidgetBase) (intensity_std gradient_std falloff_power : ℝ)
  | triangular (base : WidgetBase) (intensity_width gradient_height : ℝ)
      (direction : TriDirection)
  | rectangular (base : WidgetBase) (intensity_width gradient_height falloff : ℝ)
  | ellipsoid (base : WidgetBase) (intensity_radius gradient_radius falloff_power : ℝ)
  | diamond (base : WidgetBase) (intensity_width gradient_height : ℝ)

/-- The shared attribute record of a widget. -/
def TFWidget.base : TFWidget → WidgetBase
  | .gaussian b _ _ _ => b
  | .triangular b _ _ _ => b
  | .rectangular b _ _ _ => b
  | .ellipsoid b _ _ _ => b
  | .diamond b _ _ => b

/-- `calculate_opacity(intensity, gradient)` of each widget subclass,
transcribed case by case from `widget_factory.py`. -/
noncomputable def TFWidget.calculate_opacity : TFWidget → ℝ → ℝ → ℝ
  | .gaussian b intensity_std gradient_std _, intensity, gradient =>
      -- GaussianWidget: proper 2D Gaussian
      let dx := (intensity - b.center_intensity) / intensity_std
      let dy := (gradient - b.center_gradient) / gradient_std
      let distance_sq := dx * dx + dy * dy
      b.opacity * Real.exp (-distance_sq / 2)
  | .triangular b intensity_width gradient_height direction, intensity, gradient =>
      let dx := |intensity - b.center_intensity| / (intensity_width / 2)
      let dy := |gradient - b.center_gradient| / (gradient_height / 2)
      match direction with
      | .up =>
          if gradient < b.center_gradient then 0
          else
            let relative_height := (gradient - b.center_gradient) / (gradient_height / 2)
            if 1 < dx ∨ 1 < relative_height then 0
            else b.opacity * max 0 (1 - dx - relative_height)
      | .down =>
          if b.center_gradient < gradient then 0
          else
            let relative_height := (b.center_gradient - gradient) / (gradient_height / 2)
            if 1 < dx ∨ 1 < relative_height then 0
            else b.opacity * max 0 (1 - dx - relative_height)
      | _ =>
          -- symmetric (default): classic diamond-like triangular shape
          if 1 < dx + dy then 0
          else b.opacity * max 0 (1 - dx - dy)
  | .rectangular b intensity_width gradient_height falloff, intensity, gradient =>
      let half_width := intensity_width / 2
      let half_height := gradient_height / 2
      let dist_x := max 0 (|intensity - b.center_intensity| - half_width) / max 1 falloff
      let dist_y := max 0 (|gradient - b.center_gradient| - half_height) / max 1 falloff
      let max_dist := max dist_x dist_y
      if max_dist ≤ 1 then b.opacity * (1 - max_dist) else 0
  | .ellipsoid b intensity_radius gradient_radius falloff_power, intensity, gradient =>
      -- early exit optimization
      if intensity_radius < |intensity - b.center_intensity| ∨
          gradient_radius < |gradient - b.center_gradient| then 0
      else
        let dx := (intensity - b.center_intensity) / intensity_radius
        let dy := (gradient - b.center_gradient) / gradient_radius
        let distance := (dx ^ 2 + dy ^ 2) ^ ((1 : ℝ) / 2)
        if 1 < distance then 0
        else b.opacity * max 0 (1 - distance ^ falloff_power)
  | .diamond b intensity_width gradient_height, intensity, gradient =>
      -- early exit optimization
      if intensity_width / 2 < |intensity - b.center_intensity| ∨
          gradient_height / 2 < |gradient - b.center_gradient| then 0
      else
        let dx := |intensity - b.center_intensity| / (intensity_width / 2)
        let dy := |gradient - b.center_gradient| / (gradient_height / 2)
        if 1 < dx + dy then 0
        else b.opacity * max 0 (1 - (dx + dy))

/-- `GaussianWidget.__init__`: stds floored to 1 to prevent division by
zero; `falloff_power` stored as given. -/
noncomputable def GaussianWidget (ci cg intensity_std gradient_std falloff_power
    opacity : ℝ) (color : RColor) (blend_mode : BlendMode) : TFWidget :=
  .gaussian ⟨ci, cg, opacity, color, blend_mode⟩
    (max 1 intensity_std) (max 1 gradient_std) falloff_power

/-- `TriangularWidget.__init__`. -/
noncomputable def TriangularWidget (ci cg intensity_width gradient_height : ℝ)
    (direction : TriDirection) (opacity : ℝ) (color : RColor)
    (blend_mode : BlendMode) : TFWidget :=
  .triangular ⟨ci, cg, opacity, color, blend_mode⟩
    (max 1 intensity_width) (max 1 gradient_height) direction

/-- `RectangularWidget.__init__`: widths floored to 1, falloff to 0. -/
noncomputable def RectangularWidget (ci cg intensity_width gradient_height
    falloff opacity : ℝ) (color : RColor) (blend_mode : BlendMode) : TFWidget :=
  .rectangular ⟨ci, cg, opacity, color, blend_mode⟩
    (max 1 intensity_width) (max 1 gradient_height) (max 0 falloff)

/-- `EllipsoidWidget.__init__`. -/
noncomputable def EllipsoidWidget (ci cg intensity_radius gradient_radius
    falloff_power opacity : ℝ) (color : RColor) (blend_mode : BlendMode) : TFWidget :=
  .ellipsoid ⟨ci, cg, opacity, color, blend_mode⟩
    (max 1 intensity_radius) (max 1 gradient_radius) falloff_power

/-- `DiamondWidget.__init__`. -/
noncomputable def DiamondWidget (ci cg intensity_width gradient_height
    opacity : ℝ) (color : RColor) (blend_mode : BlendMode) : TFWidget :=
  .diamond ⟨ci, cg, opacity, color, blend_mode⟩
    (max 1 intensity_width) (max 1 gradient_height)

/-- Python `int(value)` for a float value: truncation toward zero. -/
noncomputable def pyInt (x : ℝ) : ℤ := if 0 ≤ x then ⌊x⌋ else ⌈x⌉

/-- `TFWidget.set_parameter` (the base-class branches) for a numeric
`value`.  A numeric value stored into `blend_mode` compares unequal to
`'add'`/`'multiply'`, so it behaves as the default `max` branch: `other`. -/
noncomputable def setBaseParameter (b : WidgetBase) (name : String) (value : ℝ) :
    WidgetBase :=
  if name = "center_intensity" then
    { b with center_intensity := max 0 (min 255 ((pyInt value : ℤ) : ℝ)) }
  else if name = "center_gradient" then
    { b with center_gradient := max 0 (min 255 ((pyInt value : ℤ) : ℝ)) }
  else if name = "opacity" then
    { b with opacity := max 0 (min 1 value) }
  else if name = "blend_mode" then
    { b with blend_mode := .other }
  else b

/-- Each subclass's `set_parameter(name, value)` for a numeric `value`:
first the `super()` call updates the shared fields, then the kind-specific
branches floor the shape parameters (`max(1, int(value))`, etc.).  A numeric
value stored into `direction` behaves as the default `symmetric` branch:
`other`. -/
noncomputable def set_parameter (w : TFWidget) (name : String) (value : ℝ) :
    TFWidget :=
  match w with
  | .gaussian b s1 s2 fp =>
      let b' := setBaseParameter b name value
      if name = "intensity_std" then
        .gaussian b' (max 1 ((pyInt value : ℤ) : ℝ)) s2 fp
      else if name = "gradient_std" then
        .gaussian b' s1 (max 1 ((pyInt value : ℤ) : ℝ)) fp
      else if name = "falloff_power" then
        .gaussian b' s1 s2 (max 0.1 value)
      else .gaussian b' s1 s2 fp
  | .triangular b tw th dir =>
      let b' := setBaseParameter b name value
      if name = "intensity_width" then
        .triangular b' (max 1 ((pyInt value : ℤ) : ℝ)) th dir
      else if name = "gradient_height" then
        .triangular b' tw (max 1 ((pyInt value : ℤ) : ℝ)) dir
      else if name = "direction" then
        .triangular b' tw th .other
      else .triangular b' tw th dir
  | .rectangular b rw rh f =>
      let b' := setBaseParameter b name value
      if name = "intensity_width" then
        .rectangular b' (max 1 ((pyInt value : ℤ) : ℝ)) rh f
      else if name = "gradient_height" then
        .rectangular b' rw (max 1 ((pyInt value : ℤ) : ℝ)) f
      else if name = "falloff" then
        .rectangular b' rw rh (max 0 value)
      else .rectangular b' rw rh f
  | .ellipsoid b r1 r2 fp =>
      let b' := setBaseParameter b name value
      if name = "intensity_radius" then
        .ellipsoid b' (max 1 ((pyInt value : ℤ) : ℝ)) r2 fp
      else if name = "gradient_radius" then
        .ellipsoid b' r1 (max 1 ((pyInt value : ℤ) : ℝ)) fp
      else if name = "falloff_power" then
        .ellipsoid b' r1 r2 (max 0.1 value)
      else .ellipsoid b' r1 r2 fp
  | .diamond b dw dh =>
      let b' := setBaseParameter b name value
      if name = "intensity_width" then
        .diamond b' (max 1 ((pyInt value : ℤ) : ℝ)) dh
      else if name = "gradient_height" then
        .diamond b' dw (max 1 ((pyInt value : ℤ) : ℝ))
      else .diamond b' dw dh

/-- The flooring invariant the factory and `set_parameter` maintain on
shape parameters: stds/widths/radii at least 1 (rectangular falloff at
least 0 — its use site divides by `max(1, falloff)`). -/
def wfShape : TFWidget → Prop
  | .gaussian _ s1 s2 _ => 1 ≤ s1 ∧ 1 ≤ s2
  | .triangular _ tw th _ => 1 ≤ tw ∧ 1 ≤ th
  | .rectangular _ rw rh f => 1 ≤ rw ∧ 1 ≤ rh ∧ 0 ≤ f
  | .ellipsoid _ r1 r2 _ => 1 ≤ r1 ∧ 1 ≤ r2
  | .diamond _ dw dh => 1 ≤ dw ∧ 1 ≤ dh

/-- The denominators appearing in each kind's `calculate_opacity`. -/
noncomputable def shapeDivisors : TFWidget → List ℝ
  | .gaussian _ s1 s2 _ => [s1, s2]
  | .triangular _ tw th _ => [tw / 2, th / 2]
  | .rectangular _ _ _ f => [max 1 f]
  | .ellipsoid _ r1 r2 _ => [r1, r2]
  | .diamond _ dw dh => [dw / 2, dh / 2]

/-- A widget as produced by `WidgetFactory.create_widget` — i.e. through one
of the five class constructors. -/
def isFactoryWidget (w : TFWidget) : Prop :=
  (∃ ci cg s1 s2 fp op col bm, w = GaussianWidget ci cg s1 s2 fp op col bm) ∨
  (∃ ci cg tw th dir op col bm, w = TriangularWidget ci cg tw th dir op col bm) ∨
  (∃ ci cg rw rh f op col bm, w = RectangularWidget ci cg rw rh f op col bm) ∨
  (∃ ci cg r1 r2 fp op col bm, w = EllipsoidWidget ci cg r1 r2 fp op col bm) ∨
  (∃ ci cg dw dh op col bm, w = DiamondWidget ci cg dw dh op col bm)

/-! ## Compositing engine (`unified_tf_canvas.py`) -/

/-- One step of the `calculate_combined_opacity` loop: apply the widget's
blend mode to the running value (`else` branch is `'max'`, the default). -/
noncomputable def blendStep (intensity gradient : ℝ) (acc : ℝ) (w : TFWidget) : ℝ :=
  let widget_opacity := w.calculate_opacity intensity gradient
  match w.base.blend_mode with
  | .add => acc + widget_opacity
  | .multiply => acc * (1 - widget_opacity) + widget_opacity
  | _ => max acc widget_opacity

/-- `UnifiedTFCanvas.calculate_combined_opacity`: early `0.0` for an empty
widget list, otherwise the blend reduction from `0.0`, clamped by
`min(1.0, ...)`. -/
noncomputable def calculate_combined_opacity (widgets : List TFWidget)
    (intensity gradient : ℝ) : ℝ :=
  match widgets with
  | [] => 0
  | _ :: _ => min 1 (widgets.foldl (blendStep intensity gradient) 0)

/-! ## Coordinate transform (`transfer_function_plot.py`) -/

/-- `TransferFunctionPlot._data_to_display`; `log_scale` is the state of the
log-toggle checkbox, `np.log1p(x) = log(1 + x)`. -/
noncomputable def data_to_display (log_scale : Bool) (x : ℝ) : ℝ :=
  if log_scale then 255 * (Real.log (1 + x) / Real.log (1 + 255))
  else x

/-- `TransferFunctionPlot._display_to_data`; `np.expm1(y) = exp y - 1` and
`np.clip(v, 0.0, 255.0) = min 255 (max 0 v)`. -/
noncomputable def display_to_data (log_scale : Bool) (x_disp : ℝ) : ℝ :=
  if log_scale then
    min 255 (max 0 (Real.exp (x_disp / 255 * Real.log (1 + 255)) - 1))
  else min 255 (max 0 x_disp)

/-! ## Data-driven LUT sampler (`unified_tf_canvas.py`)

`sample_for_vtk_data_driven` draws a random subsample of up to 5000 data
indices with `np.random.choice(len(self.data), sample_size, replace=False)`
— unseeded, so the draw is modelled as an explicit input `indices` together
with the predicate `validDraw` describing the draws the call can produce.
The 256-entry `np.zeros(256)` / `np.ones((256, 3))` accumulators are
modelled as functions from the integer intensity key. -/

/-- The state of the two parallel accumulators `intensity_opacity` /
`intensity_color`, always indexed and updated together: a map from the
(integer) intensity key to the `(opacity, color)` entry. -/
abbrev LUTAcc := ℤ → ℝ × RColor

/-- The update at the heart of the `sample_for_vtk_data_driven` loop body:
overwrite the per-intensity opacity maximum (and its color) at key `k` with
value `v` when `v` exceeds both the `0.01` threshold and the current entry. -/
noncomputable def gatedUpdate (col : RColor) (k : ℤ) (v : ℝ) (acc : LUTAcc) :
    LUTAcc :=
  if 1 / 100 < v ∧ (acc k).1 < v then Function.update acc k (v, col) else acc

/-- One iteration of the inner data-point loop of
`sample_for_vtk_data_driven`: truncate the sampled intensity
(`int(self.data[idx])`), evaluate the widget at the sampled point, and
apply the gated overwrite there. -/
noncomputable def dataDrivenPointStep (w : TFWidget) (data gradient_data : List ℝ)
    (acc : LUTAcc) (idx : ℕ) : LUTAcc :=
  let data_intensity : ℤ := pyInt (data.getD idx 0)
  let data_gradient : ℝ := gradient_data.getD idx 0
  let opacity := w.calculate_opacity (data_intensity : ℝ) data_gradient
  gatedUpdate w.base.color data_intensity opacity acc

/-- The per-widget loop of `sample_for_vtk_data_driven`: fold the sampled
indices through `dataDrivenPointStep`. -/
noncomputable def dataDrivenWidgetStep (data gradient_data : List ℝ)
    (indices : List ℕ) (acc : LUTAcc) (w : TFWidget) : LUTAcc :=
  indices.foldl (dataDrivenPointStep w data gradient_data) acc

/-- `UnifiedTFCanvas.sample_for_vtk_data_driven` with the random index draw
made explicit; the accumulators start as `np.zeros(256)` / `np.ones((256, 3))`
and `_create_vtk_samples` packages the result as 256
`(intensity, opacity, color)` entries. -/
noncomputable def sample_for_vtk_data_driven (widgets : List TFWidget)
    (data gradient_data : List ℝ) (indices : List ℕ) : List (ℕ × ℝ × RColor) :=
  let init : LUTAcc := fun _ => (0, (1, 1, 1))
  let final := widgets.foldl (dataDrivenWidgetStep data gradient_data indices) init
  (List.range 256).map fun intensity =>
    (intensity, (final (intensity : ℤ)).1, (final (intensity : ℤ)).2)

/-- `UnifiedTFCanvas.sample_for_vtk` delegates to the data-driven strategy
(the gradient-aware variant is commented out in the source). -/
noncomputable def sample_for_vtk (widgets : List TFWidget)
    (data gradient_data : List ℝ) (indices : List ℕ) : List (ℕ × ℝ × RColor) :=
  sample_for_vtk_data_driven widgets data gradient_data indices

/-- A draw `np.random.choice(len(data), min(5000, len(data)),
replace=False)` can produce: the right number of distinct in-range
indices. -/
def validDraw (dataLen : ℕ) (indices : List ℕ) : Prop :=
  indices.length = min 5000 dataLen ∧ indices.Nodup ∧ ∀ i ∈ indices, i < dataLen

/-- Concrete fixture: a 5001-point dataset whose first point is the only one
at intensity/gradient 128 (all others at 0). -/
noncomputable def demoData : List ℝ := (128 : ℝ) :: List.replicate 5000 0

/-- Concrete fixture: a rectangular widget centered at `(128, 128)`. -/
noncomputable def demoRect : TFWidget :=
  RectangularWidget 128 128 40 40 5 1 (1, 1, 1) .max

/-! ### Helper lemmas about sorted position lists -/

lemma sorted_positions_iff (l : List CurvePoint) :
    List.Sorted (· ≤ ·) (positions l) ↔ List.Sorted posLe l := by
  unfold positions List.Sorted
  rw [List.pairwise_map]
  rfl

lemma head?_eq_of_sorted_of_mem {xs : List ℚ} {a : ℚ}
    (hs : List.Sorted (· ≤ ·) xs) (hm : a ∈ xs) (hall : ∀ x ∈ xs, a ≤ x) :
    xs.head? = some a := by
  cases xs with
  | nil => cases hm
  | cons x t =>
    have hxa : a ≤ x := hall x (List.mem_cons_self x t)
    have hax : x ≤ a := by
      rcases List.mem_cons.mp hm with h | h
      · exact le_of_eq h.symm
      · exact (List.pairwise_cons.mp hs).1 a h
    simp [le_antisymm hax hxa]

lemma getLast?_eq_of_sorted_of_mem {xs : List ℚ} {a : ℚ}
    (hs : List.Sorted (· ≤ ·) xs) (hm : a ∈ xs) (hall : ∀ x ∈ xs, x ≤ a) :
    xs.getLast? = some a := by
  rw [List.getLast?_eq_head?_reverse]
  have hs' : List.Sorted (fun p q => q ≤ p) xs.reverse := by
    unfold List.Sorted
    rw [List.pairwise_reverse]
    exact hs
  cases h : xs.reverse with
  | nil => simp [List.reverse_eq_nil_iff.mp h] at hm
  | cons x t =>
    rw [h] at hs'
    have hm' : a ∈ x :: t := by rw [← h, List.mem_reverse]; exact hm
    have hxa : x ≤ a := by
      have hx : x ∈ xs := by
        have : x ∈ xs.reverse := by rw [h]; exact List.mem_cons_self x t
        exact List.mem_reverse.mp this
      exact hall x hx
    have hax : a ≤ x := by
      rcases List.mem_cons.mp hm' with h' | h'
      · exact le_of_eq h'
      · exact (List.pairwise_cons.mp hs').1 a h'
    simp [le_antisymm hax hxa]

lemma mem_head_of_good {l : List CurvePoint} (h : goodCurve l) :
    ∃ p ∈ l, p.1 = 0 := by
  obtain ⟨-, h0, -⟩ := h
  have hmem : (0 : ℚ) ∈ positions l :=
    List.mem_of_mem_head? (Option.mem_def.mpr h0)
  obtain ⟨p, hp, hp0⟩ := List.mem_map.mp hmem
  exact ⟨p, hp, hp0⟩

lemma mem_last_of_good {l : List CurvePoint} (h : goodCurve l) :
    ∃ p ∈ l, p.1 = 255 := by
  obtain ⟨-, -, h255⟩ := h
  have hmem : (255 : ℚ) ∈ positions l :=
    List.mem_of_mem_getLast? (Option.mem_def.mpr h255)
  obtain ⟨p, hp, hp0⟩ := List.mem_map.mp hmem
  exact ⟨p, hp, hp0⟩

lemma pos_bounds_of_good {l : List CurvePoint} (h : goodCurve l) :
    ∀ p ∈ l, 0 ≤ p.1 ∧ p.1 ≤ 255 := by
  obtain ⟨hs, h0, h255⟩ := h
  intro p hp
  have hpm : p.1 ∈ positions l := List.mem_map.mpr ⟨p, hp, rfl⟩
  constructor
  · cases hl : positions l with
    | nil => rw [hl] at hpm; cases hpm
    | cons x t =>
      rw [hl] at h0 hpm hs
      simp only [List.head?_cons, Option.some.injEq] at h0
      rcases List.mem_cons.mp hpm with h' | h'
      · rw [h', ← h0]
      · rw [← h0]; exact (List.pairwise_cons.mp hs).1 _ h'
  · have hs' : List.Sorted (fun a b => b ≤ a) (positions l).reverse := by
      unfold List.Sorted
      rw [List.pairwise_reverse]
      exact hs
    rw [List.getLast?_eq_head?_reverse] at h255
    have hpm' : p.1 ∈ (positions l).reverse := List.mem_reverse.mpr hpm
    cases hl : (positions l).reverse with
    | nil => rw [hl] at hpm'; cases hpm'
    | cons x t =>
      rw [hl] at h255 hpm' hs'
      simp only [List.head?_cons, Option.some.injEq] at h255
      rcases List.mem_cons.mp hpm' with h' | h'
      · rw [h', h255]
      · rw [← h255]; exact (List.pairwise_cons.mp hs').1 _ h'

/-- A sorted permutation of a list that contains position `0`, contains
position `255`, and has all positions within `[0, 255]`, is a good curve. -/
lemma goodCurve_of_sorted_perm {l m : List CurvePoint}
    (hperm : l.Perm m) (hs : List.Sorted posLe l)
    (h0 : ∃ p ∈ m, p.1 = 0) (h255 : ∃ p ∈ m, p.1 = 255)
    (hall : ∀ p ∈ m, 0 ≤ p.1 ∧ p.1 ≤ 255) :
    goodCurve l := by
  have hs' : List.Sorted (· ≤ ·) (positions l) := (sorted_positions_iff l).mpr hs
  refine ⟨hs', ?_, ?_⟩
  · obtain ⟨p, hp, hp0⟩ := h0
    have hpl : p ∈ l := hperm.mem_iff.mpr hp
    refine head?_eq_of_sorted_of_mem hs' ?_ ?_
    · rw [← hp0]; exact List.mem_map.mpr ⟨p, hpl, rfl⟩
    · intro x hx
      obtain ⟨q, hq, hqx⟩ := List.mem_map.mp hx
      rw [← hqx]
      exact (hall q (hperm.mem_iff.mp hq)).1
  · obtain ⟨p, hp, hp255⟩ := h255
    have hpl : p ∈ l := hperm.mem_iff.mpr hp
    refine getLast?_eq_of_sorted_of_mem hs' ?_ ?_
    · rw [← hp255]; exact List.mem_map.mpr ⟨p, hpl, rfl⟩
    · intro x hx
      obtain ⟨q, hq, hqx⟩ := List.mem_map.mp hx
      rw [← hqx]
      exact (hall q (hperm.mem_iff.mp hq)).2

lemma two_le_length_of_good {l : List CurvePoint} (h : goodCurve l) :
    2 ≤ l.length := by
  obtain ⟨-, h0, h255⟩ := h
  rcases l with - | ⟨p, t⟩
  · simp [positions] at h0
  · rcases t with - | ⟨q, t'⟩
    · exfalso
      simp only [positions, List.map_cons, List.map_nil, List.head?_cons,
        Option.some.injEq] at h0
      simp only [positions, List.map_cons, List.map_nil, List.getLast?_singleton,
        Option.some.injEq] at h255
      rw [h0] at h255
      norm_num at h255
    · simp [List.length_cons]

lemma getElem_head_of_good {l : List CurvePoint} (h : goodCurve l)
    (h0 : 0 < l.length) : (l[0]).1 = 0 := by
  obtain ⟨-, hh, -⟩ := h
  rw [positions, List.head?_eq_getElem?, List.getElem?_map,
    List.getElem?_eq_getElem h0] at hh
  simpa using hh

lemma getElem_last_of_good {l : List CurvePoint} (h : goodCurve l)
    (hn : l.length - 1 < l.length) : (l[l.length - 1]).1 = 255 := by
  obtain ⟨-, -, hl⟩ := h
  rw [positions, List.getLast?_eq_getElem?, List.getElem?_map, List.length_map,
    List.getElem?_eq_getElem hn] at hl
  simpa using hl

lemma mem_eraseIdx_of_getElem {l : List α} {j n : ℕ} (hj : j < l.length)
    (hne : j ≠ n) : l[j] ∈ l.eraseIdx n := by
  rw [List.eraseIdx_eq_take_drop_succ]
  rcases Nat.lt_or_ge j n with hlt | hge
  · apply List.mem_append_left
    have hj' : j < (List.take n l).length := by
      rw [List.length_take]
      exact lt_min hlt hj
    have : (List.take n l)[j] = l[j] := List.getElem_take l
    rw [← this]
    exact List.getElem_mem hj'
  · have hgt : n + 1 ≤ j := Nat.succ_le_of_lt (lt_of_le_of_ne hge (Ne.symm hne))
    apply List.mem_append_right
    have hj' : j - (n + 1) < (List.drop (n + 1) l).length := by
      rw [List.length_drop]
      omega
    have hjj : (n + 1) + (j - (n + 1)) < l.length := by omega
    have heq : (List.drop (n + 1) l)[j - (n + 1)] = l[j] := by
      rw [List.getElem_drop]
      congr 1
      omega
    rw [← heq]
    exact List.getElem_mem hj'

lemma set_length_sub_one {l : List α} (hne : l ≠ []) (v : α) :
    l.set (l.length - 1) v = l.dropLast ++ [v] := by
  induction l with
  | nil => exact absurd rfl hne
  | cons a t ih =>
    rcases t with - | ⟨b, t'⟩
    · rfl
    · have h' : (b :: t') ≠ [] := by simp
      simp only [List.length_cons, Nat.add_sub_cancel, List.set_cons_succ,
        List.dropLast_cons₂, List.cons_append]
      have := ih h'
      simp only [List.length_cons, Nat.add_sub_cancel] at this
      rw [this]

/-! ### Invariant preservation for the three curve mutators -/

lemma goodCurve_add {l : List CurvePoint} (h : goodCurve l) {x : ℚ} (y : ℚ)
    (c : QColor) (hx0 : 0 ≤ x) (hx255 : x ≤ 255) :
    goodCurve (add_point l x y c) := by
  unfold add_point sort_points_with_colors
  apply goodCurve_of_sorted_perm (m := l ++ [(x, y, c)])
  · exact List.perm_insertionSort posLe _
  · exact List.sorted_insertionSort posLe _
  · obtain ⟨p, hp, hp0⟩ := mem_head_of_good h
    exact ⟨p, List.mem_append_left _ hp, hp0⟩
  · obtain ⟨p, hp, hp255⟩ := mem_last_of_good h
    exact ⟨p, List.mem_append_left _ hp, hp255⟩
  · intro p hp
    rcases List.mem_append.mp hp with hp | hp
    · exact pos_bounds_of_good h p hp
    · simp only [List.mem_singleton] at hp
      rw [hp]
      exact ⟨hx0, hx255⟩

lemma goodCurve_remove {l : List CurvePoint} (h : goodCurve l) (i : ℤ) :
    goodCurve (remove_point l i) := by
  unfold remove_point
  split
  case isFalse => exact h
  case isTrue hcond =>
    obtain ⟨hi0, hilen, hine0, hinelast⟩ := hcond
    have hn : i.toNat < l.length := by omega
    have hn0 : i.toNat ≠ 0 := by omega
    have hnlast : i.toNat ≠ l.length - 1 := by omega
    have hlen2 := two_le_length_of_good h
    apply goodCurve_of_sorted_perm (m := l.eraseIdx i.toNat) (List.Perm.refl _)
    · have hs : List.Sorted posLe l := (sorted_positions_iff l).mp h.1
      exact List.Pairwise.sublist (List.eraseIdx_sublist l i.toNat) hs
    · have h0l : 0 < l.length := by omega
      exact ⟨l[0], mem_eraseIdx_of_getElem h0l (Ne.symm hn0),
        getElem_head_of_good h h0l⟩
    · have hll : l.length - 1 < l.length := by omega
      have hne' : l.length - 1 ≠ i.toNat := fun he => hnlast he.symm
      exact ⟨l[l.length - 1], mem_eraseIdx_of_getElem hll hne',
        getElem_last_of_good h hll⟩
    · intro p hp
      exact pos_bounds_of_good h p ((List.eraseIdx_sublist l i.toNat).subset hp)

lemma goodCurve_update {l : List CurvePoint} (h : goodCurve l) (i : ℤ)
    {x : ℚ} (y : ℚ) (hx0 : 0 ≤ x) (hx255 : x ≤ 255) :
    goodCurve (update_point l i x y) := by
  unfold update_point
  split
  case isFalse => exact h
  case isTrue hcond =>
    obtain ⟨hi0, hilen⟩ := hcond
    have hn : i.toNat < l.length := by omega
    have hlen2 := two_le_length_of_good h
    set x' : ℚ := if i = 0 then 0 else if i = (l.length : ℤ) - 1 then 255 else x
      with hx'
    set c : QColor := (l.getD i.toNat (0, 0, (1, 1, 1))).2.2 with hc
    have hx'bounds : 0 ≤ x' ∧ x' ≤ 255 := by
      rw [hx']
      split
      · norm_num
      · split
        · norm_num
        · exact ⟨hx0, hx255⟩
    apply goodCurve_of_sorted_perm (m := l.set i.toNat (x', y, c))
    · exact List.perm_insertionSort posLe _
    · exact List.sorted_insertionSort posLe _
    · by_cases hi : i = 0
      · refine ⟨(x', y, c), List.mem_set l i.toNat hn (x', y, c), ?_⟩
        simp [hx', hi]
      · have hne : i.toNat ≠ 0 := by omega
        have h0l : 0 < l.length := by omega
        have h0' : 0 < (l.set i.toNat (x', y, c)).length := by
          rw [List.length_set]; omega
        refine ⟨(l.set i.toNat (x', y, c))[0], List.getElem_mem h0', ?_⟩
        have hset : (l.set i.toNat (x', y, c))[0] = l[0] :=
          List.getElem_set_ne hne h0'
        rw [hset]
        exact getElem_head_of_good h h0l
    · by_cases hi : i = (l.length : ℤ) - 1
      · refine ⟨(x', y, c), List.mem_set l i.toNat hn (x', y, c), ?_⟩
        have hine0 : ¬ i = 0 := by omega
        have hlne : ¬ ((l.length : ℤ) - 1 = 0) := by omega
        simp [hx', hine0, hi, hlne]
      · have hne : i.toNat ≠ l.length - 1 := by omega
        have hll : l.length - 1 < l.length := by omega
        have h0' : l.length - 1 < (l.set i.toNat (x', y, c)).length := by
          rw [List.length_set]; omega
        refine ⟨(l.set i.toNat (x', y, c))[l.length - 1],
          List.getElem_mem h0', ?_⟩
        have hset : (l.set i.toNat (x', y, c))[l.length - 1] = l[l.length - 1] :=
          List.getElem_set_ne hne h0'
        rw [hset]
        exact getElem_last_of_good h hll
    · intro p hp
      rcases List.mem_or_eq_of_mem_set hp with hp | hp
      · exact pos_bounds_of_good h p hp
      · rw [hp]
        exact hx'bounds

lemma goodCurve_applyOp {l : List CurvePoint} (h : goodCurve l) {op : CurveOp}
    (hop : opInRange op) : goodCurve (applyOp l op) := by
  cases op with
  | add x y color => exact goodCurve_add h y color hop.1 hop.2
  | remove i => exact goodCurve_remove h i
  | move i x y => exact goodCurve_update h i y hop.1 hop.2

/-! ### Claim C1 -/

/-- Claim C1 (amended): for every sequence of `add_point`/`remove_point`/
`update_point` operations whose requested `add`/`move` positions lie in the
domain `[0, 255]` (as the mouse handlers guarantee by clipping before each
call), a curve that starts sorted with first position `0` and last position
`255` remains sorted non-decreasingly by position with first and last
positions exactly `0` and `255` after every operation.  The in-range side
condition is necessary: `add_point` itself does not clamp
(see the counterexample). -/
theorem curve_ops_preserve_invariant (ops : List CurveOp) (l : List CurvePoint)
    (hl : goodCurve l) (hops : ∀ op ∈ ops, opInRange op) :
    goodCurve (List.foldl applyOp l ops) := by
  induction ops generalizing l with
  | nil => exact hl
  | cons op rest ih =>
    rw [List.foldl_cons]
    exact ih _ (goodCurve_applyOp hl (hops op (List.mem_cons_self op rest)))
      (fun o ho => hops o (List.mem_cons_of_mem _ ho))

/-- Witness for C1: a concrete good curve and a concrete in-range operation
sequence, with the invariant evaluated on the result. -/
theorem curve_ops_preserve_invariant_witness :
    goodCurve demoCurve ∧
    (∀ op ∈ [CurveOp.add 10 1 whiteQ, CurveOp.move 1 20 0, CurveOp.remove 1],
      opInRange op) ∧
    goodCurve (List.foldl applyOp demoCurve
      [CurveOp.add 10 1 whiteQ, CurveOp.move 1 20 0, CurveOp.remove 1]) :=
  ⟨by decide, by decide,
    curve_ops_preserve_invariant
      [CurveOp.add 10 1 whiteQ, CurveOp.move 1 20 0, CurveOp.remove 1]
      demoCurve (by decide) (by decide)⟩

/-- Counterexample for C1 as frozen: `add_point` does not clamp, so inserting
at position `-1` leaves the sorted curve with first position `-1`, not `0`
— the claim fails for sequences with out-of-range insert positions. -/
theorem curve_ops_counterexample :
    goodCurve demoCurve ∧
    ¬ goodCurve (List.foldl applyOp demoCurve [CurveOp.add (-1) 0 whiteQ]) := by
  constructor
  · decide
  · decide

/-! ### Claim C7 -/

/-- Claim C7: `update_point` on the first element stores position `0`
regardless of the requested new position (and on the last element, `255`),
stores the requested opacity, and keeps the point's color; the re-sorted
curve still starts at position `0` (ends at `255`). -/
theorem update_point_pins_endpoints (l : List CurvePoint) (hl : goodCurve l)
    (x y : ℚ) (p0 pN : CurvePoint)
    (h0 : l.head? = some p0) (hN : l.getLast? = some pN) :
    ((update_point l 0 x y).Perm ((0, y, p0.2.2) :: l.tail) ∧
      (positions (update_point l 0 x y)).head? = some 0) ∧
    ((update_point l ((l.length : ℤ) - 1) x y).Perm ((255, y, pN.2.2) :: l.dropLast) ∧
      (positions (update_point l ((l.length : ℤ) - 1) x y)).getLast? = some 255) := by
  have hlen2 := two_le_length_of_good hl
  have hne : l ≠ [] := by
    intro h
    rw [h] at hlen2
    simp at hlen2
  constructor
  · -- moving the first point: position forced to 0
    have hguard : (0 : ℤ) ≤ 0 ∧ (0 : ℤ) < (l.length : ℤ) := ⟨le_refl 0, by omega⟩
    have hgetD0 : l[0]? = some p0 := by
      rw [← List.head?_eq_getElem?]
      exact h0
    have hset0 : l.set 0 (0, y, p0.2.2) = (0, y, p0.2.2) :: l.tail := by
      cases l with
      | nil => exact absurd rfl hne
      | cons a t => rfl
    have hupd : update_point l 0 x y
        = sort_points_with_colors ((0, y, p0.2.2) :: l.tail) := by
      unfold update_point
      rw [if_pos hguard]
      simp [hgetD0, hset0]
    constructor
    · rw [hupd]
      exact List.perm_insertionSort posLe _
    · rw [hupd]
      apply head?_eq_of_sorted_of_mem
      · exact (sorted_positions_iff _).mpr (List.sorted_insertionSort posLe _)
      · exact List.mem_map.mpr ⟨(0, y, p0.2.2),
          (List.mem_insertionSort posLe).mpr (List.mem_cons_self _ _), rfl⟩
      · intro z hz
        obtain ⟨q, hq, rfl⟩ := List.mem_map.mp hz
        rcases List.mem_cons.mp ((List.mem_insertionSort posLe).mp hq) with h' | h'
        · rw [h']
        · exact (pos_bounds_of_good hl q ((List.tail_sublist l).subset h')).1
  · -- moving the last point: position forced to 255
    have hi0 : ¬ ((l.length : ℤ) - 1 = 0) := by omega
    have hguard : (0 : ℤ) ≤ (l.length : ℤ) - 1 ∧
        (l.length : ℤ) - 1 < (l.length : ℤ) := by omega
    have htoNat : ((l.length : ℤ) - 1).toNat = l.length - 1 := by omega
    have hgetD : l[l.length - 1]? = some pN := by
      rw [← List.getLast?_eq_getElem?]
      exact hN
    have hupd : update_point l ((l.length : ℤ) - 1) x y
        = sort_points_with_colors (l.dropLast ++ [(255, y, pN.2.2)]) := by
      unfold update_point
      rw [if_pos hguard]
      simp [hi0, htoNat, hgetD]
      rw [set_length_sub_one hne]
    constructor
    · rw [hupd]
      exact (List.perm_insertionSort posLe _).trans
        (List.perm_append_singleton _ _)
    · rw [hupd]
      apply getLast?_eq_of_sorted_of_mem
      · exact (sorted_positions_iff _).mpr (List.sorted_insertionSort posLe _)
      · exact List.mem_map.mpr ⟨(255, y, pN.2.2),
          (List.mem_insertionSort posLe).mpr
            (List.mem_append_right _ (List.mem_cons_self _ _)), rfl⟩
      · intro z hz
        obtain ⟨q, hq, rfl⟩ := List.mem_map.mp hz
        rcases List.mem_append.mp ((List.mem_insertionSort posLe).mp hq)
          with h' | h'
        · exact (pos_bounds_of_good hl q ((List.dropLast_sublist l).subset h')).2
        · rcases List.mem_singleton.mp h' with rfl
          norm_num

/-- Witness for C7: scenario D — dragging the first point of the default
two-point curve to position `200` keeps its stored position `0`, updates the
opacity to the dragged value, and likewise the last point pins to `255`. -/
theorem update_point_pins_endpoints_witness :
    goodCurve demoCurve ∧
    ((update_point demoCurve 0 200 1).Perm ((0, 1, whiteQ) :: demoCurve.tail) ∧
      (positions (update_point demoCurve 0 200 1)).head? = some 0) ∧
    ((update_point demoCurve ((demoCurve.length : ℤ) - 1) 200 1).Perm
        ((255, 1, whiteQ) :: demoCurve.dropLast) ∧
      (positions (update_point demoCurve
        ((demoCurve.length : ℤ) - 1) 200 1)).getLast? = some 255) :=
  ⟨by decide,
    (update_point_pins_endpoints demoCurve (by decide) 200 1
      (0, 0, whiteQ) (255, 1, whiteQ) rfl rfl).1,
    (update_point_pins_endpoints demoCurve (by decide) 200 1
      (0, 0, whiteQ) (255, 1, whiteQ) rfl rfl).2⟩

/-! ### Claim C8 -/

/-- Claim C8: `remove_point` with index `0`, index `len-1`, or any index
outside `[0, len-1]` leaves the curve completely unchanged (a no-op); in
particular the length never changes. -/
theorem remove_point_noop (l : List CurvePoint) (i : ℤ)
    (h : i = 0 ∨ i = (l.length : ℤ) - 1 ∨ i < 0 ∨ (l.length : ℤ) ≤ i) :
    remove_point l i = l ∧ (remove_point l i).length = l.length := by
  have hguard : ¬ (0 ≤ i ∧ i < (l.length : ℤ) ∧ i ≠ 0 ∧ i ≠ (l.length : ℤ) - 1) := by
    rcases h with h | h | h | h <;> rintro ⟨h1, h2, h3, h4⟩ <;> omega
  unfold remove_point
  rw [if_neg hguard]
  exact ⟨rfl, rfl⟩

/-- Witness for C8: removing index 0 of a concrete three-point curve is a
no-op. -/
theorem remove_point_noop_witness :
    ((0 : ℤ) = 0 ∨ (0 : ℤ) = (demoCurve3.length : ℤ) - 1 ∨ (0 : ℤ) < 0 ∨
      (demoCurve3.length : ℤ) ≤ 0) ∧
    remove_point demoCurve3 0 = demoCurve3 ∧
    (remove_point demoCurve3 0).length = demoCurve3.length :=
  ⟨Or.inl rfl,
    (remove_point_noop demoCurve3 0 (Or.inl rfl)).1,
    (remove_point_noop demoCurve3 0 (Or.inl rfl)).2⟩

/-! ## Widget, compositing, transform and sampler theorems -/

lemma foldl_blendStep_multiply (intensity gradient : ℝ) :
    ∀ (l : List TFWidget) (acc : ℝ),
      (∀ w ∈ l, w.base.blend_mode = BlendMode.multiply) →
      List.foldl (blendStep intensity gradient) acc l =
        List.foldl (fun acc w =>
          acc * (1 - w.calculate_opacity intensity gradient) +
            w.calculate_opacity intensity gradient) acc l := by
  intro l
  induction l with
  | nil => intro acc _; rfl
  | cons w t ih =>
    intro acc h
    have hb := h w (List.mem_cons_self w t)
    simp only [List.foldl_cons]
    rw [show blendStep intensity gradient acc w =
        acc * (1 - w.calculate_opacity intensity gradient) +
          w.calculate_opacity intensity gradient from by
      simp only [blendStep, hb]]
    exact ih _ (fun q hq => h q (List.mem_cons_of_mem _ hq))

/-- Claim C2: the multiply blend combines widgets by the recurrence
`acc = acc*(1-w) + w` applied per widget in insertion order; in particular,
two fully overlapping Rectangular widgets each contributing opacity `0.5`
at the query point combine to `0.75`, not `0.25`. -/
theorem multiply_blend_recurrence_and_scenarioC :
    (∀ (ws : List TFWidget) (intensity gradient : ℝ),
      (∀ w ∈ ws, w.base.blend_mode = BlendMode.multiply) →
      calculate_combined_opacity ws intensity gradient =
        min 1 (ws.foldl (fun acc w =>
          acc * (1 - w.calculate_opacity intensity gradient) +
            w.calculate_opacity intensity gradient) 0)) ∧
    calculate_combined_opacity
      [RectangularWidget 128 128 40 40 5 (1/2) (1, 1, 1) .multiply,
       RectangularWidget 128 128 40 40 5 (1/2) (1, 1, 1) .multiply] 128 128 = 3/4 ∧
    calculate_combined_opacity
      [RectangularWidget 128 128 40 40 5 (1/2) (1, 1, 1) .multiply,
       RectangularWidget 128 128 40 40 5 (1/2) (1, 1, 1) .multiply] 128 128 ≠ 1/4 := by
  refine ⟨?_, ?_, ?_⟩
  · intro ws intensity gradient hm
    cases ws with
    | nil => simp [calculate_combined_opacity]
    | cons w t =>
      simp only [calculate_combined_opacity]
      rw [foldl_blendStep_multiply intensity gradient (w :: t) 0 hm]
  · simp only [calculate_combined_opacity, blendStep, List.foldl_cons, List.foldl_nil,
      RectangularWidget, TFWidget.calculate_opacity, TFWidget.base]
    norm_num
  · simp only [calculate_combined_opacity, blendStep, List.foldl_cons, List.foldl_nil,
      RectangularWidget, TFWidget.calculate_opacity, TFWidget.base]
    norm_num

/-- Claim C3 (amended): for every query point, `calculate_combined_opacity`
over a widget list whose widgets all share one blend mode — `max`, `add`,
or also `multiply` — is invariant under any permutation of the list.  The
claim's asserted order-dependence of `multiply` does not hold in the code
(see the counterexample): starting from `0.0`, `acc*(1-w) + w` composes to
the symmetric `1 - ∏(1-wᵢ)`. -/
theorem homogeneous_blend_perm_invariant (b : BlendMode) (l₁ l₂ : List TFWidget)
    (intensity gradient : ℝ) (hperm : l₁.Perm l₂)
    (hb : ∀ w ∈ l₁, w.base.blend_mode = b) :
    calculate_combined_opacity l₁ intensity gradient =
      calculate_combined_opacity l₂ intensity gradient := by
  have hfold := hperm.foldl_eq'
    (f := blendStep intensity gradient)
    (by
      intro x hx y hy z
      have hbx := hb x hx
      have hby := hb y hy
      simp only [blendStep, hbx, hby]
      cases b with
      | add => ring
      | multiply => ring
      | max => exact Max.right_comm z _ _
      | other => exact Max.right_comm z _ _) 0
  cases l₁ with
  | nil =>
    have h2 : l₂ = [] := hperm.symm.eq_nil
    rw [h2]
  | cons w t =>
    cases l₂ with
    | nil =>
      exact absurd hperm.eq_nil (by simp)
    | cons w2 t2 =>
      simp only [calculate_combined_opacity]
      rw [hfold]

/-- Counterexample for C3 as frozen: there are no two multiply-blend
widgets, of different opacities both `< 1`, whose combined opacity changes
when their order is swapped — `a + b - a*b` is symmetric, so the claimed
order-dependence of `multiply` is false. -/
theorem multiply_order_counterexample :
    ¬ ∃ (w₁ w₂ : TFWidget) (intensity gradient : ℝ),
      w₁.base.blend_mode = BlendMode.multiply ∧
      w₂.base.blend_mode = BlendMode.multiply ∧
      w₁.base.opacity ≠ w₂.base.opacity ∧ w₁.base.opacity < 1 ∧
      w₂.base.opacity < 1 ∧
      calculate_combined_opacity [w₁, w₂] intensity gradient ≠
        calculate_combined_opacity [w₂, w₁] intensity gradient := by
  rintro ⟨w₁, w₂, intensity, gradient, h₁, h₂, -, -, -, hne⟩
  apply hne
  simp only [calculate_combined_opacity, List.foldl_cons, List.foldl_nil,
    blendStep, h₁, h₂]
  ring_nf


/-- Claim C4 (amended): with `opacity_scale = 1`, all five widget kinds
return exactly `1` at the widget center, and the four bounded kinds
(Triangular, Rectangular, Ellipsoid, Diamond) return exactly `0` at the
unit-distance boundary of their shape.  The Gaussian has no zero boundary —
`exp` is everywhere positive (see the counterexample) — so it is excluded
from the boundary half. -/
theorem widget_center_one_boundary_zero
    (ci cg s1 s2 gfp tw th bw bh bf r1 r2 efp dw dh : ℝ) (col : RColor)
    (bm : BlendMode) (hefp : 0 < efp) :
    ((GaussianWidget ci cg s1 s2 gfp 1 col bm).calculate_opacity ci cg = 1 ∧
     (TriangularWidget ci cg tw th .symmetric 1 col bm).calculate_opacity ci cg = 1 ∧
     (RectangularWidget ci cg bw bh bf 1 col bm).calculate_opacity ci cg = 1 ∧
     (EllipsoidWidget ci cg r1 r2 efp 1 col bm).calculate_opacity ci cg = 1 ∧
     (DiamondWidget ci cg dw dh 1 col bm).calculate_opacity ci cg = 1) ∧
    ((TriangularWidget ci cg tw th .symmetric 1 col bm).calculate_opacity
        (ci + max 1 tw / 2) cg = 0 ∧
     (RectangularWidget ci cg bw bh bf 1 col bm).calculate_opacity
        (ci + max 1 bw / 2 + max 1 (max 0 bf)) cg = 0 ∧
     (EllipsoidWidget ci cg r1 r2 efp 1 col bm).calculate_opacity
        (ci + max 1 r1) cg = 0 ∧
     (DiamondWidget ci cg dw dh 1 col bm).calculate_opacity
        (ci + max 1 dw / 2) cg = 0) := by
  have htw : (1 : ℝ) ≤ max 1 tw := le_max_left 1 tw
  have hth : (1 : ℝ) ≤ max 1 th := le_max_left 1 th
  have hbw : (1 : ℝ) ≤ max 1 bw := le_max_left 1 bw
  have hbh : (1 : ℝ) ≤ max 1 bh := le_max_left 1 bh
  have hbf : (1 : ℝ) ≤ max 1 (max 0 bf) := le_max_left 1 (max 0 bf)
  have hr1 : (1 : ℝ) ≤ max 1 r1 := le_max_left 1 r1
  have hr2 : (1 : ℝ) ≤ max 1 r2 := le_max_left 1 r2
  have hdw : (1 : ℝ) ≤ max 1 dw := le_max_left 1 dw
  have hdh : (1 : ℝ) ≤ max 1 dh := le_max_left 1 dh
  refine ⟨⟨?_, ?_, ?_, ?_, ?_⟩, ?_, ?_, ?_, ?_⟩
  · -- Gaussian at center
    simp only [GaussianWidget, TFWidget.calculate_opacity]
    norm_num [Real.exp_zero]
  · -- Triangular at center
    simp only [TriangularWidget, TFWidget.calculate_opacity]
    norm_num
  · -- Rectangular at center
    simp only [RectangularWidget, TFWidget.calculate_opacity]
    rw [sub_self, abs_zero, sub_self, abs_zero]
    rw [show max 0 (0 - max 1 bw / 2) = 0 from max_eq_left (by linarith)]
    rw [show max 0 (0 - max 1 bh / 2) = 0 from max_eq_left (by linarith)]
    norm_num
  · -- Ellipsoid at center
    simp only [EllipsoidWidget, TFWidget.calculate_opacity]
    rw [sub_self, abs_zero, sub_self, abs_zero]
    rw [if_neg (by push_neg; constructor <;> linarith)]
    norm_num [Real.zero_rpow (by norm_num : ((1 : ℝ) / 2) ≠ 0),
      Real.zero_rpow hefp.ne']
  · -- Diamond at center
    simp only [DiamondWidget, TFWidget.calculate_opacity]
    rw [sub_self, abs_zero, sub_self, abs_zero]
    rw [if_neg (by push_neg; constructor <;> linarith)]
    norm_num
  · -- Triangular at unit boundary
    simp only [TriangularWidget, TFWidget.calculate_opacity]
    rw [show ci + max 1 tw / 2 - ci = max 1 tw / 2 by ring]
    rw [abs_of_pos (by linarith), sub_self, abs_zero,
      div_self (by linarith : max 1 tw / 2 ≠ 0)]
    norm_num
  · -- Rectangular at unit boundary
    simp only [RectangularWidget, TFWidget.calculate_opacity]
    rw [show ci + max 1 bw / 2 + max 1 (max 0 bf) - ci
        = max 1 bw / 2 + max 1 (max 0 bf) by ring]
    rw [abs_of_pos (by linarith), sub_self, abs_zero]
    rw [show max 1 bw / 2 + max 1 (max 0 bf) - max 1 bw / 2 = max 1 (max 0 bf) by ring]
    rw [show max 0 (max 1 (max 0 bf)) = max 1 (max 0 bf) from max_eq_right (by linarith)]
    rw [show max 0 (0 - max 1 bh / 2) = 0 from max_eq_left (by linarith)]
    rw [div_self (by linarith : max 1 (max 0 bf) ≠ 0), zero_div]
    norm_num
  · -- Ellipsoid at unit boundary
    simp only [EllipsoidWidget, TFWidget.calculate_opacity]
    rw [show ci + max 1 r1 - ci = max 1 r1 by ring]
    rw [abs_of_pos (by linarith), sub_self, abs_zero]
    rw [if_neg (by push_neg; constructor <;> linarith)]
    rw [div_self (by linarith : max 1 r1 ≠ 0)]
    norm_num [Real.one_rpow]
  · -- Diamond at unit boundary
    simp only [DiamondWidget, TFWidget.calculate_opacity]
    rw [show ci + max 1 dw / 2 - ci = max 1 dw / 2 by ring]
    rw [abs_of_pos (by linarith), sub_self, abs_zero]
    rw [if_neg (by push_neg; constructor <;> linarith)]
    rw [div_self (by linarith : max 1 dw / 2 ≠ 0), zero_div]
    norm_num

/-- Counterexample for C4 as frozen: the default Gaussian widget evaluated
exactly at unit distance (one std from center) returns `exp(-1/2) ≠ 0`,
so the claim "all five kinds return 0 at the unit-distance boundary" fails
for the Gaussian kind. -/
theorem gaussian_boundary_counterexample :
    (GaussianWidget 128 128 30 30 2 1 (1, 1, 1) .max).calculate_opacity
      (128 + 30) 128 ≠ 0 := by
  simp only [GaussianWidget, TFWidget.calculate_opacity]
  norm_num

lemma aux_opacity_mul_bounds (op t : ℝ) (hop0 : 0 ≤ op) (hop1 : op ≤ 1)
    (ht : t ≤ 1) : 0 ≤ op * max 0 t ∧ op * max 0 t ≤ 1 :=
  ⟨mul_nonneg hop0 (le_max_left 0 t),
   mul_le_one₀ hop1 (le_max_left 0 t) (max_le zero_le_one ht)⟩

lemma calculate_opacity_bounds (w : TFWidget) (intensity gradient : ℝ)
    (hop0 : 0 ≤ w.base.opacity) (hop1 : w.base.opacity ≤ 1) (hwf : wfShape w) :
    0 ≤ w.calculate_opacity intensity gradient ∧
      w.calculate_opacity intensity gradient ≤ 1 := by
  cases w with
  | gaussian b s1 s2 fp =>
    simp only [TFWidget.base] at hop0 hop1
    simp only [TFWidget.calculate_opacity]
    refine ⟨mul_nonneg hop0 (Real.exp_pos _).le, ?_⟩
    refine mul_le_one₀ hop1 (Real.exp_pos _).le (Real.exp_le_one_iff.mpr ?_)
    have h1 := mul_self_nonneg ((intensity - b.center_intensity) / s1)
    have h2 := mul_self_nonneg ((gradient - b.center_gradient) / s2)
    linarith
  | triangular b tw th dir =>
    simp only [TFWidget.base] at hop0 hop1
    obtain ⟨hw1, hh1⟩ := hwf
    have hdx : 0 ≤ |intensity - b.center_intensity| / (tw / 2) :=
      div_nonneg (abs_nonneg _) (by linarith)
    have hdy : 0 ≤ |gradient - b.center_gradient| / (th / 2) :=
      div_nonneg (abs_nonneg _) (by linarith)
    cases dir with
    | up =>
      simp only [TFWidget.calculate_opacity]
      split_ifs with hg hrel
      · exact ⟨le_refl 0, zero_le_one⟩
      · exact ⟨le_refl 0, zero_le_one⟩
      · have hrel0 : 0 ≤ (gradient - b.center_gradient) / (th / 2) :=
          div_nonneg (by linarith [not_lt.mp hg]) (by linarith)
        exact aux_opacity_mul_bounds _ _ hop0 hop1 (by linarith)
    | down =>
      simp only [TFWidget.calculate_opacity]
      split_ifs with hg hrel
      · exact ⟨le_refl 0, zero_le_one⟩
      · exact ⟨le_refl 0, zero_le_one⟩
      · have hrel0 : 0 ≤ (b.center_gradient - gradient) / (th / 2) :=
          div_nonneg (by linarith [not_lt.mp hg]) (by linarith)
        exact aux_opacity_mul_bounds _ _ hop0 hop1 (by linarith)
    | symmetric =>
      simp only [TFWidget.calculate_opacity]
      split_ifs with hd
      · exact ⟨le_refl 0, zero_le_one⟩
      · exact aux_opacity_mul_bounds _ _ hop0 hop1 (by linarith)
    | other =>
      simp only [TFWidget.calculate_opacity]
      split_ifs with hd
      · exact ⟨le_refl 0, zero_le_one⟩
      · exact aux_opacity_mul_bounds _ _ hop0 hop1 (by linarith)
  | rectangular b bw bh bf =>
    simp only [TFWidget.base] at hop0 hop1
    simp only [TFWidget.calculate_opacity]
    have hfb : (1 : ℝ) ≤ max 1 bf := le_max_left 1 bf
    have hdx : 0 ≤ max 0 (|intensity - b.center_intensity| - bw / 2) / max 1 bf :=
      div_nonneg (le_max_left 0 _) (by linarith)
    have hdy : 0 ≤ max 0 (|gradient - b.center_gradient| - bh / 2) / max 1 bf :=
      div_nonneg (le_max_left 0 _) (by linarith)
    split_ifs with hd
    · have hmd : 0 ≤ max (max 0 (|intensity - b.center_intensity| - bw / 2) / max 1 bf)
          (max 0 (|gradient - b.center_gradient| - bh / 2) / max 1 bf) :=
        le_max_of_le_left hdx
      constructor
      · exact mul_nonneg hop0 (by linarith)
      · exact mul_le_one₀ hop1 (by linarith) (by linarith)
    · exact ⟨le_refl 0, zero_le_one⟩
  | ellipsoid b r1 r2 fp =>
    simp only [TFWidget.base] at hop0 hop1
    simp only [TFWidget.calculate_opacity]
    split_ifs with hearly hd
    · exact ⟨le_refl 0, zero_le_one⟩
    · exact ⟨le_refl 0, zero_le_one⟩
    · have hbase : (0 : ℝ) ≤ ((intensity - b.center_intensity) / r1) ^ 2 +
          ((gradient - b.center_gradient) / r2) ^ 2 := by positivity
      have hdist : (0 : ℝ) ≤ (((intensity - b.center_intensity) / r1) ^ 2 +
          ((gradient - b.center_gradient) / r2) ^ 2) ^ ((1 : ℝ) / 2) :=
        Real.rpow_nonneg hbase _
      have hpow : (0 : ℝ) ≤ ((((intensity - b.center_intensity) / r1) ^ 2 +
          ((gradient - b.center_gradient) / r2) ^ 2) ^ ((1 : ℝ) / 2)) ^ fp :=
        Real.rpow_nonneg hdist _
      exact aux_opacity_mul_bounds _ _ hop0 hop1 (by linarith)
  | diamond b dw dh =>
    simp only [TFWidget.base] at hop0 hop1
    obtain ⟨hw1, hh1⟩ := hwf
    have hdx : 0 ≤ |intensity - b.center_intensity| / (dw / 2) :=
      div_nonneg (abs_nonneg _) (by linarith)
    have hdy : 0 ≤ |gradient - b.center_gradient| / (dh / 2) :=
      div_nonneg (abs_nonneg _) (by linarith)
    simp only [TFWidget.calculate_opacity]
    split_ifs with hearly hd
    · exact ⟨le_refl 0, zero_le_one⟩
    · exact ⟨le_refl 0, zero_le_one⟩
    · exact aux_opacity_mul_bounds _ _ hop0 hop1 (by linarith)

lemma foldl_blendStep_nonneg (intensity gradient : ℝ) :
    ∀ (l : List TFWidget) (acc : ℝ),
      (∀ w ∈ l, 0 ≤ w.calculate_opacity intensity gradient ∧
        w.calculate_opacity intensity gradient ≤ 1) →
      0 ≤ acc → 0 ≤ List.foldl (blendStep intensity gradient) acc l := by
  intro l
  induction l with
  | nil => intro acc _ hacc; exact hacc
  | cons w t ih =>
    intro acc h hacc
    obtain ⟨hw0, hw1⟩ := h w (List.mem_cons_self w t)
    have hstep : 0 ≤ blendStep intensity gradient acc w := by
      cases hb : w.base.blend_mode with
      | add =>
        simp only [blendStep, hb]
        linarith
      | multiply =>
        simp only [blendStep, hb]
        have : 0 ≤ acc * (1 - w.calculate_opacity intensity gradient) :=
          mul_nonneg hacc (by linarith)
        linarith
      | max =>
        simp only [blendStep, hb]
        exact le_max_of_le_left hacc
      | other =>
        simp only [blendStep, hb]
        exact le_max_of_le_left hacc
    rw [List.foldl_cons]
    exact ih _ (fun q hq => h q (List.mem_cons_of_mem _ hq)) hstep

/-- Claim C10 (amended): for every widget list whose widgets have opacity
in `[0, 1]` and well-formed (factory-floored) shape parameters, the
combined opacity lies in `[0, 1]` at every query point, and the empty list
yields exactly `0.0`.  Without the shape-parameter condition the bound
fails (see the counterexample) — negative widths make a widget opacity
exceed 1, which `add` then amplifies and `multiply` turns negative. -/
theorem combined_opacity_unit_interval (l : List TFWidget) (intensity gradient : ℝ)
    (h : ∀ w ∈ l, 0 ≤ w.base.opacity ∧ w.base.opacity ≤ 1 ∧ wfShape w) :
    (0 ≤ calculate_combined_opacity l intensity gradient ∧
      calculate_combined_opacity l intensity gradient ≤ 1) ∧
    calculate_combined_opacity [] intensity gradient = 0 := by
  refine ⟨?_, rfl⟩
  cases l with
  | nil => exact ⟨le_refl 0, zero_le_one⟩
  | cons w t =>
    have hfold : 0 ≤ List.foldl (blendStep intensity gradient) 0 (w :: t) := by
      apply foldl_blendStep_nonneg
      · intro q hq
        obtain ⟨h0, h1, hwf⟩ := h q hq
        exact calculate_opacity_bounds q intensity gradient h0 h1 hwf
      · exact le_refl 0
    simp only [calculate_combined_opacity]
    exact ⟨le_min zero_le_one hfold, min_le_left 1 _⟩

/-- Counterexample for C10 as frozen: three raw triangular widgets with
opacity `1 ∈ [0,1]` but width `-2` (unreachable through the factory, but
allowed by the claim as stated) drive the combined opacity to `-2 < 0`. -/
theorem combined_opacity_range_counterexample :
    (∀ w ∈ [TFWidget.triangular ⟨0, 0, 1, (1, 1, 1), .add⟩ (-2) (-2) .symmetric,
            TFWidget.triangular ⟨0, 0, 1, (1, 1, 1), .add⟩ (-2) (-2) .symmetric,
            TFWidget.triangular ⟨0, 0, 1, (1, 1, 1), .multiply⟩ (-2) (-2) .symmetric],
        0 ≤ w.base.opacity ∧ w.base.opacity ≤ 1) ∧
    calculate_combined_opacity
      [TFWidget.triangular ⟨0, 0, 1, (1, 1, 1), .add⟩ (-2) (-2) .symmetric,
       TFWidget.triangular ⟨0, 0, 1, (1, 1, 1), .add⟩ (-2) (-2) .symmetric,
       TFWidget.triangular ⟨0, 0, 1, (1, 1, 1), .multiply⟩ (-2) (-2) .symmetric]
      1 0 < 0 := by
  constructor
  · intro w hw
    simp only [List.mem_cons, List.not_mem_nil, or_false] at hw
    rcases hw with rfl | rfl | rfl <;>
      exact ⟨zero_le_one, le_refl 1⟩
  · simp only [calculate_combined_opacity, blendStep, List.foldl_cons,
      List.foldl_nil, TFWidget.calculate_opacity, TFWidget.base]
    norm_num

lemma wfShape_factory (w : TFWidget) (hw : isFactoryWidget w) : wfShape w := by
  rcases hw with ⟨ci, cg, s1, s2, fp, op, col, bm, rfl⟩ |
    ⟨ci, cg, tw, th, dir, op, col, bm, rfl⟩ |
    ⟨ci, cg, bw, bh, bf, op, col, bm, rfl⟩ |
    ⟨ci, cg, r1, r2, fp, op, col, bm, rfl⟩ |
    ⟨ci, cg, dw, dh, op, col, bm, rfl⟩
  · exact ⟨le_max_left 1 _, le_max_left 1 _⟩
  · exact ⟨le_max_left 1 _, le_max_left 1 _⟩
  · exact ⟨le_max_left 1 _, le_max_left 1 _, le_max_left 0 _⟩
  · exact ⟨le_max_left 1 _, le_max_left 1 _⟩
  · exact ⟨le_max_left 1 _, le_max_left 1 _⟩

lemma wfShape_set_parameter (w : TFWidget) (hwf : wfShape w) (name : String)
    (value : ℝ) : wfShape (set_parameter w name value) := by
  cases w with
  | gaussian b s1 s2 fp =>
    simp only [set_parameter]
    split_ifs
    · exact ⟨le_max_left 1 _, hwf.2⟩
    · exact ⟨hwf.1, le_max_left 1 _⟩
    · exact hwf
    · exact hwf
  | triangular b tw th dir =>
    simp only [set_parameter]
    split_ifs
    · exact ⟨le_max_left 1 _, hwf.2⟩
    · exact ⟨hwf.1, le_max_left 1 _⟩
    · exact hwf
    · exact hwf
  | rectangular b bw bh bf =>
    simp only [set_parameter]
    split_ifs
    · exact ⟨le_max_left 1 _, hwf.2.1, hwf.2.2⟩
    · exact ⟨hwf.1, le_max_left 1 _, hwf.2.2⟩
    · exact ⟨hwf.1, hwf.2.1, le_max_left 0 _⟩
    · exact hwf
  | ellipsoid b r1 r2 fp =>
    simp only [set_parameter]
    split_ifs
    · exact ⟨le_max_left 1 _, hwf.2⟩
    · exact ⟨hwf.1, le_max_left 1 _⟩
    · exact hwf
    · exact hwf
  | diamond b dw dh =>
    simp only [set_parameter]
    split_ifs
    · exact ⟨le_max_left 1 _, hwf.2⟩
    · exact ⟨hwf.1, le_max_left 1 _⟩
    · exact hwf

lemma shapeDivisors_ne_zero (w : TFWidget) (hwf : wfShape w) :
    ∀ d ∈ shapeDivisors w, d ≠ 0 := by
  cases w with
  | gaussian b s1 s2 fp =>
    obtain ⟨h1, h2⟩ := hwf
    intro d hd
    simp only [shapeDivisors, List.mem_cons, List.not_mem_nil, or_false] at hd
    rcases hd with rfl | rfl
    · exact ne_of_gt (by linarith)
    · exact ne_of_gt (by linarith)
  | triangular b tw th dir =>
    obtain ⟨h1, h2⟩ := hwf
    intro d hd
    simp only [shapeDivisors, List.mem_cons, List.not_mem_nil, or_false] at hd
    rcases hd with rfl | rfl
    · exact ne_of_gt (by linarith)
    · exact ne_of_gt (by linarith)
  | rectangular b bw bh bf =>
    intro d hd
    simp only [shapeDivisors, List.mem_cons, List.not_mem_nil, or_false] at hd
    rcases hd with rfl
    exact ne_of_gt (by linarith [le_max_left (1 : ℝ) bf])
  | ellipsoid b r1 r2 fp =>
    obtain ⟨h1, h2⟩ := hwf
    intro d hd
    simp only [shapeDivisors, List.mem_cons, List.not_mem_nil, or_false] at hd
    rcases hd with rfl | rfl
    · exact ne_of_gt (by linarith)
    · exact ne_of_gt (by linarith)
  | diamond b dw dh =>
    obtain ⟨h1, h2⟩ := hwf
    intro d hd
    simp only [shapeDivisors, List.mem_cons, List.not_mem_nil, or_false] at hd
    rcases hd with rfl | rfl
    · exact ne_of_gt (by linarith)
    · exact ne_of_gt (by linarith)

lemma wfShape_foldl_set_parameter (sets : List (String × ℝ)) :
    ∀ w, wfShape w →
      wfShape (sets.foldl (fun acc nv => set_parameter acc nv.1 nv.2) w) := by
  induction sets with
  | nil => intro w hw; exact hw
  | cons nv t ih =>
    intro w hw
    rw [List.foldl_cons]
    exact ih _ (wfShape_set_parameter w hw nv.1 nv.2)

/-- Claim C9: every widget constructed via the factory and mutated through
any sequence of `set_parameter` calls with arbitrary numeric values keeps
its std/width/radius shape parameters floored at `1` (rectangular falloff
at `0`, divided as `max(1, falloff)`), so every denominator appearing in
`calculate_opacity` is nonzero. -/
theorem set_parameter_flooring (w : TFWidget) (hw : isFactoryWidget w)
    (sets : List (String × ℝ)) :
    wfShape (sets.foldl (fun acc nv => set_parameter acc nv.1 nv.2) w) ∧
    ∀ d ∈ shapeDivisors (sets.foldl (fun acc nv => set_parameter acc nv.1 nv.2) w),
      d ≠ 0 := by
  have hwf := wfShape_foldl_set_parameter sets w (wfShape_factory w hw)
  exact ⟨hwf, shapeDivisors_ne_zero _ hwf⟩

/-- Witness for C9: a concrete factory Gaussian mutated with an
out-of-range std. -/
theorem set_parameter_flooring_witness :
    isFactoryWidget (GaussianWidget 128 128 30 30 2 1 (1, 1, 1) .max) ∧
    wfShape (List.foldl (fun acc nv => set_parameter acc nv.1 nv.2)
      (GaussianWidget 128 128 30 30 2 1 (1, 1, 1) .max)
      [("intensity_std", -5), ("opacity", 2)]) ∧
    ∀ d ∈ shapeDivisors (List.foldl (fun acc nv => set_parameter acc nv.1 nv.2)
      (GaussianWidget 128 128 30 30 2 1 (1, 1, 1) .max)
      [("intensity_std", -5), ("opacity", 2)]), d ≠ 0 :=
  ⟨Or.inl ⟨128, 128, 30, 30, 2, 1, (1, 1, 1), .max, rfl⟩,
   (set_parameter_flooring (GaussianWidget 128 128 30 30 2 1 (1, 1, 1) .max)
     (Or.inl ⟨128, 128, 30, 30, 2, 1, (1, 1, 1), .max, rfl⟩)
     [("intensity_std", -5), ("opacity", 2)]).1,
   (set_parameter_flooring (GaussianWidget 128 128 30 30 2 1 (1, 1, 1) .max)
     (Or.inl ⟨128, 128, 30, 30, 2, 1, (1, 1, 1), .max, rfl⟩)
     [("intensity_std", -5), ("opacity", 2)]).2⟩

/-- Witness for C2: the recurrence instantiated at a concrete two-widget
multiply list. -/
theorem multiply_blend_recurrence_witness :
    (∀ w ∈ [RectangularWidget 128 128 40 40 5 (1/2) (1, 1, 1) .multiply,
            RectangularWidget 100 100 30 30 5 (3/4) (1, 1, 1) .multiply],
       w.base.blend_mode = BlendMode.multiply) ∧
    calculate_combined_opacity
      [RectangularWidget 128 128 40 40 5 (1/2) (1, 1, 1) .multiply,
       RectangularWidget 100 100 30 30 5 (3/4) (1, 1, 1) .multiply] 50 60 =
      min 1 (List.foldl (fun acc w =>
          acc * (1 - w.calculate_opacity 50 60) + w.calculate_opacity 50 60) 0
        [RectangularWidget 128 128 40 40 5 (1/2) (1, 1, 1) .multiply,
         RectangularWidget 100 100 30 30 5 (3/4) (1, 1, 1) .multiply]) :=
  ⟨by
    intro w hw
    simp only [List.mem_cons, List.not_mem_nil, or_false] at hw
    rcases hw with rfl | rfl <;> rfl,
   multiply_blend_recurrence_and_scenarioC.1
     [RectangularWidget 128 128 40 40 5 (1/2) (1, 1, 1) .multiply,
      RectangularWidget 100 100 30 30 5 (3/4) (1, 1, 1) .multiply] 50 60
     (by
       intro w hw
       simp only [List.mem_cons, List.not_mem_nil, or_false] at hw
       rcases hw with rfl | rfl <;> rfl)⟩

/-- Witness for C3: swapping two concrete `max`-blend widgets leaves the
combined opacity unchanged. -/
theorem homogeneous_blend_perm_invariant_witness :
    ([RectangularWidget 100 100 40 40 5 1 (1, 1, 1) .max,
      GaussianWidget 128 128 30 30 2 1 (1, 1, 1) .max].Perm
     [GaussianWidget 128 128 30 30 2 1 (1, 1, 1) .max,
      RectangularWidget 100 100 40 40 5 1 (1, 1, 1) .max]) ∧
    (∀ w ∈ [RectangularWidget 100 100 40 40 5 1 (1, 1, 1) .max,
            GaussianWidget 128 128 30 30 2 1 (1, 1, 1) .max],
       w.base.blend_mode = BlendMode.max) ∧
    calculate_combined_opacity
      [RectangularWidget 100 100 40 40 5 1 (1, 1, 1) .max,
       GaussianWidget 128 128 30 30 2 1 (1, 1, 1) .max] 10 20 =
    calculate_combined_opacity
      [GaussianWidget 128 128 30 30 2 1 (1, 1, 1) .max,
       RectangularWidget 100 100 40 40 5 1 (1, 1, 1) .max] 10 20 :=
  ⟨List.Perm.swap (GaussianWidget 128 128 30 30 2 1 (1, 1, 1) .max)
     (RectangularWidget 100 100 40 40 5 1 (1, 1, 1) .max) [],
   by
     intro w hw
     simp only [List.mem_cons, List.not_mem_nil, or_false] at hw
     rcases hw with rfl | rfl <;> rfl,
   homogeneous_blend_perm_invariant BlendMode.max
     [RectangularWidget 100 100 40 40 5 1 (1, 1, 1) .max,
      GaussianWidget 128 128 30 30 2 1 (1, 1, 1) .max]
     [GaussianWidget 128 128 30 30 2 1 (1, 1, 1) .max,
      RectangularWidget 100 100 40 40 5 1 (1, 1, 1) .max] 10 20
     (List.Perm.swap (GaussianWidget 128 128 30 30 2 1 (1, 1, 1) .max)
       (RectangularWidget 100 100 40 40 5 1 (1, 1, 1) .max) [])
     (by
       intro w hw
       simp only [List.mem_cons, List.not_mem_nil, or_false] at hw
       rcases hw with rfl | rfl <;> rfl)⟩

/-- Witness for C4: the center/boundary evaluations at concrete default
parameters. -/
theorem widget_center_one_boundary_zero_witness :
    (0 : ℝ) < 1 ∧
    (((GaussianWidget 128 128 30 30 2 1 (1, 1, 1) .max).calculate_opacity 128 128 = 1 ∧
     (TriangularWidget 128 128 50 50 .symmetric 1 (1, 1, 1) .max).calculate_opacity 128 128 = 1 ∧
     (RectangularWidget 128 128 40 40 5 1 (1, 1, 1) .max).calculate_opacity 128 128 = 1 ∧
     (EllipsoidWidget 128 128 30 30 1 1 (1, 1, 1) .max).calculate_opacity 128 128 = 1 ∧
     (DiamondWidget 128 128 50 50 1 (1, 1, 1) .max).calculate_opacity 128 128 = 1) ∧
    ((TriangularWidget 128 128 50 50 .symmetric 1 (1, 1, 1) .max).calculate_opacity
        (128 + max 1 50 / 2) 128 = 0 ∧
     (RectangularWidget 128 128 40 40 5 1 (1, 1, 1) .max).calculate_opacity
        (128 + max 1 40 / 2 + max 1 (max 0 5)) 128 = 0 ∧
     (EllipsoidWidget 128 128 30 30 1 1 (1, 1, 1) .max).calculate_opacity
        (128 + max 1 30) 128 = 0 ∧
     (DiamondWidget 128 128 50 50 1 (1, 1, 1) .max).calculate_opacity
        (128 + max 1 50 / 2) 128 = 0)) :=
  ⟨by norm_num,
   widget_center_one_boundary_zero 128 128 30 30 2 50 50 40 40 5 30 30 1 50 50
     (1, 1, 1) .max (by norm_num)⟩

/-- Claim C6: for every `x` in `[0, 255]`, the display transform followed
by its inverse recovers `x` exactly (hence within floating tolerance), in
both the linear mode (identity out, clamped back) and the log mode
(`255*log1p(x)/log1p(255)` out, `expm1((x/255)*log1p(255))` clamped back). -/
theorem transform_round_trip (log_scale : Bool) (x : ℝ)
    (h0 : 0 ≤ x) (h255 : x ≤ 255) :
    display_to_data log_scale (data_to_display log_scale x) = x := by
  cases log_scale with
  | false =>
    simp only [data_to_display, display_to_data, Bool.false_eq_true, if_false]
    rw [max_eq_right h0, min_eq_right h255]
  | true =>
    simp only [data_to_display, display_to_data, if_true]
    have hlog : Real.log (1 + 255) ≠ 0 := by
      rw [show (1 : ℝ) + 255 = 256 by norm_num]
      exact ne_of_gt (Real.log_pos (by norm_num))
    rw [show 255 * (Real.log (1 + x) / Real.log (1 + 255)) / 255 *
        Real.log (1 + 255) = Real.log (1 + x) by field_simp; ring]
    rw [Real.exp_log (by linarith : (0 : ℝ) < 1 + x)]
    rw [show (1 : ℝ) + x - 1 = x by ring]
    rw [max_eq_right h0, min_eq_right h255]

/-- Witness for C6: the round trip evaluated at `x = 10` in both modes. -/
theorem transform_round_trip_witness :
    (0 : ℝ) ≤ 10 ∧ (10 : ℝ) ≤ 255 ∧
    display_to_data true (data_to_display true 10) = 10 ∧
    display_to_data false (data_to_display false 10) = 10 :=
  ⟨by norm_num, by norm_num,
   transform_round_trip true 10 (by norm_num) (by norm_num),
   transform_round_trip false 10 (by norm_num) (by norm_num)⟩

lemma gatedUpdate_fires (col : RColor) (k : ℤ) (v : ℝ) (acc : LUTAcc)
    (h : 1 / 100 < v ∧ (acc k).1 < v) :
    gatedUpdate col k v acc = Function.update acc k (v, col) := by
  unfold gatedUpdate
  rw [if_pos h]

lemma gatedUpdate_skips (col : RColor) (k : ℤ) (v : ℝ) (acc : LUTAcc)
    (h : ¬ (1 / 100 < v ∧ (acc k).1 < v)) :
    gatedUpdate col k v acc = acc := by
  unfold gatedUpdate
  rw [if_neg h]

lemma gatedUpdate_comm (col : RColor) (k1 k2 : ℤ) (a b : ℝ) (acc : LUTAcc) :
    gatedUpdate col k2 b (gatedUpdate col k1 a acc) =
      gatedUpdate col k1 a (gatedUpdate col k2 b acc) := by
  by_cases hk : k1 = k2
  · subst hk
    by_cases h1 : 1 / 100 < a ∧ (acc k1).1 < a
    · rw [gatedUpdate_fires col k1 a acc h1]
      by_cases h2 : 1 / 100 < b ∧ a < b
      · rw [gatedUpdate_fires col k1 b _ (by
          refine ⟨h2.1, ?_⟩
          simp only [Function.update_same]
          exact h2.2)]
        rw [gatedUpdate_fires col k1 b acc ⟨h2.1, lt_trans h1.2 h2.2⟩]
        rw [gatedUpdate_skips col k1 a _ (by
          rintro ⟨-, hcon⟩
          simp only [Function.update_same] at hcon
          exact absurd (lt_trans h2.2 hcon) (lt_irrefl a))]
        simp [Function.update_idem]
      · rw [gatedUpdate_skips col k1 b _ (by
          rintro ⟨hb, hcon⟩
          simp only [Function.update_same] at hcon
          exact h2 ⟨hb, hcon⟩)]
        by_cases h3 : 1 / 100 < b ∧ (acc k1).1 < b
        · rw [gatedUpdate_fires col k1 b acc h3]
          have hba : b ≤ a := by
            rcases not_and_or.mp h2 with h | h
            · exact absurd h3.1 h
            · exact not_lt.mp h
          by_cases h4 : b < a
          · rw [gatedUpdate_fires col k1 a _ (by
              refine ⟨h1.1, ?_⟩
              simp only [Function.update_same]
              exact h4)]
            simp [Function.update_idem]
          · rw [gatedUpdate_skips col k1 a _ (by
              rintro ⟨-, hcon⟩
              simp only [Function.update_same] at hcon
              exact h4 hcon)]
            rw [le_antisymm hba (not_lt.mp h4)]
        · rw [gatedUpdate_skips col k1 b acc h3,
            gatedUpdate_fires col k1 a acc h1]
    · rw [gatedUpdate_skips col k1 a acc h1]
      by_cases h3 : 1 / 100 < b ∧ (acc k1).1 < b
      · rw [gatedUpdate_fires col k1 b acc h3]
        rw [gatedUpdate_skips col k1 a _ (by
          rintro ⟨ha, hcon⟩
          simp only [Function.update_same] at hcon
          rcases not_and_or.mp h1 with h | h
          · exact h ha
          · exact absurd (lt_trans hcon (lt_of_le_of_lt (not_lt.mp h) h3.2))
              (lt_irrefl b))]
      · rw [gatedUpdate_skips col k1 b acc h3,
          gatedUpdate_skips col k1 a acc h1]
  · have hupd1 : ∀ v : ℝ × RColor, Function.update acc k1 v k2 = acc k2 :=
      fun v => Function.update_noteq (Ne.symm hk) v acc
    have hupd2 : ∀ v : ℝ × RColor, Function.update acc k2 v k1 = acc k1 :=
      fun v => Function.update_noteq hk v acc
    by_cases h1 : 1 / 100 < a ∧ (acc k1).1 < a
    · rw [gatedUpdate_fires col k1 a acc h1]
      by_cases h2 : 1 / 100 < b ∧ (acc k2).1 < b
      · rw [gatedUpdate_fires col k2 b _ (by
          refine ⟨h2.1, ?_⟩
          rw [hupd1]
          exact h2.2)]
        rw [gatedUpdate_fires col k2 b acc h2]
        rw [gatedUpdate_fires col k1 a _ (by
          refine ⟨h1.1, ?_⟩
          rw [hupd2]
          exact h1.2)]
        exact Function.update_comm hk (a, col) (b, col) acc
      · rw [gatedUpdate_skips col k2 b _ (by
          rintro ⟨hb, hcon⟩
          rw [hupd1] at hcon
          exact h2 ⟨hb, hcon⟩)]
        rw [gatedUpdate_skips col k2 b acc h2,
          gatedUpdate_fires col k1 a acc h1]
    · rw [gatedUpdate_skips col k1 a acc h1]
      by_cases h2 : 1 / 100 < b ∧ (acc k2).1 < b
      · rw [gatedUpdate_fires col k2 b acc h2]
        rw [gatedUpdate_skips col k1 a _ (by
          rintro ⟨ha, hcon⟩
          rw [hupd2] at hcon
          exact h1 ⟨ha, hcon⟩)]
      · rw [gatedUpdate_skips col k2 b acc h2,
          gatedUpdate_skips col k1 a acc h1]

lemma dataDrivenPointStep_comm (w : TFWidget) (data gradient_data : List ℝ)
    (acc : LUTAcc) (i j : ℕ) :
    dataDrivenPointStep w data gradient_data
      (dataDrivenPointStep w data gradient_data acc i) j =
    dataDrivenPointStep w data gradient_data
      (dataDrivenPointStep w data gradient_data acc j) i := by
  unfold dataDrivenPointStep
  exact gatedUpdate_comm w.base.color _ _ _ _ acc

lemma foldl_pointStep_perm (w : TFWidget) (data gradient_data : List ℝ)
    {indices₁ indices₂ : List ℕ} (hp : indices₁.Perm indices₂) (acc : LUTAcc) :
    indices₁.foldl (dataDrivenPointStep w data gradient_data) acc =
      indices₂.foldl (dataDrivenPointStep w data gradient_data) acc :=
  hp.foldl_eq' (fun x _ y _ z => dataDrivenPointStep_comm w data gradient_data z x y) acc

lemma sample_data_driven_perm (widgets : List TFWidget)
    (data gradient_data : List ℝ) {indices₁ indices₂ : List ℕ}
    (hp : indices₁.Perm indices₂) :
    sample_for_vtk_data_driven widgets data gradient_data indices₁ =
      sample_for_vtk_data_driven widgets data gradient_data indices₂ := by
  unfold sample_for_vtk_data_driven
  have hfold : ∀ (ws : List TFWidget) (acc : LUTAcc),
      ws.foldl (dataDrivenWidgetStep data gradient_data indices₁) acc =
        ws.foldl (dataDrivenWidgetStep data gradient_data indices₂) acc := by
    intro ws
    induction ws with
    | nil => intro acc; rfl
    | cons w t ih =>
      intro acc
      simp only [List.foldl_cons]
      rw [show dataDrivenWidgetStep data gradient_data indices₁ acc w =
          dataDrivenWidgetStep data gradient_data indices₂ acc w from
        foldl_pointStep_perm w data gradient_data hp acc]
      exact ih _
  simp only [hfold]

lemma pointStep_noop (w : TFWidget) (d g : List ℝ) (acc : LUTAcc) (idx : ℕ)
    (h : ¬ (1 / 100 < w.calculate_opacity ((pyInt (d.getD idx 0) : ℤ) : ℝ)
      (g.getD idx 0))) :
    dataDrivenPointStep w d g acc idx = acc := by
  unfold dataDrivenPointStep
  exact gatedUpdate_skips _ _ _ _ (fun hcon => h hcon.1)

lemma foldl_pointStep_noop (w : TFWidget) (d g : List ℝ) :
    ∀ (indices : List ℕ),
      (∀ idx ∈ indices, ¬ (1 / 100 <
        w.calculate_opacity ((pyInt (d.getD idx 0) : ℤ) : ℝ) (g.getD idx 0))) →
      ∀ acc, indices.foldl (dataDrivenPointStep w d g) acc = acc := by
  intro indices
  induction indices with
  | nil => intro _ acc; rfl
  | cons idx t ih =>
    intro h acc
    rw [List.foldl_cons, pointStep_noop w d g acc idx (h idx (List.mem_cons_self idx t))]
    exact ih (fun q hq => h q (List.mem_cons_of_mem _ hq)) acc

lemma demoData_getD_zero : demoData.getD 0 0 = 128 := rfl

lemma demoData_getD_succ (i : ℕ) : demoData.getD (i + 1) 0 = 0 := by
  unfold demoData
  rw [List.getD_cons_succ, List.getD_eq_getElem?_getD, List.getElem?_replicate]
  split <;> rfl

lemma pyInt_zero : pyInt 0 = 0 := by
  unfold pyInt
  rw [if_pos (le_refl 0)]
  exact Int.floor_zero

lemma pyInt_128 : pyInt 128 = 128 := by
  unfold pyInt
  rw [if_pos (by norm_num)]
  rw [show (128 : ℝ) = ((128 : ℤ) : ℝ) by norm_num, Int.floor_intCast]

lemma demoRect_at_far : demoRect.calculate_opacity ((0 : ℤ) : ℝ) 0 = 0 := by
  unfold demoRect RectangularWidget
  simp only [TFWidget.calculate_opacity]
  rw [show (((0 : ℤ) : ℝ)) = (0 : ℝ) by norm_num]
  rw [show (0 : ℝ) - 128 = -128 by norm_num, abs_neg]
  norm_num

lemma demoRect_at_center : demoRect.calculate_opacity ((128 : ℤ) : ℝ) 128 = 1 := by
  unfold demoRect RectangularWidget
  simp only [TFWidget.calculate_opacity]
  rw [show (((128 : ℤ) : ℝ)) = (128 : ℝ) by norm_num]
  norm_num

lemma sample_demo_range :
    (sample_for_vtk [demoRect] demoData demoData
      (List.range 5000)).getD 128 (0, 0, (0, 0, 0)) = (128, 1, (1, 1, 1)) := by
  have hrange : List.range 5000 = 0 :: List.map Nat.succ (List.range 4999) :=
    List.range_succ_eq_map 4999
  have hstep0 : dataDrivenPointStep demoRect demoData demoData
      (fun _ => ((0 : ℝ), ((1 : ℝ), (1 : ℝ), (1 : ℝ)))) 0
      = Function.update (fun _ => ((0 : ℝ), ((1 : ℝ), (1 : ℝ), (1 : ℝ))))
          (128 : ℤ) (1, (1, 1, 1)) := by
    simp only [dataDrivenPointStep, demoData_getD_zero, pyInt_128,
      demoRect_at_center]
    have hfire := gatedUpdate_fires (demoRect.base.color) (128 : ℤ) 1
      (fun _ => ((0 : ℝ), ((1 : ℝ), (1 : ℝ), (1 : ℝ)))) ⟨by norm_num, by norm_num⟩
    rw [hfire]
    rfl
  have hrest : ∀ acc, (List.map Nat.succ (List.range 4999)).foldl
      (dataDrivenPointStep demoRect demoData demoData) acc = acc := by
    intro acc
    apply foldl_pointStep_noop
    intro idx hidx
    obtain ⟨j, -, rfl⟩ := List.mem_map.mp hidx
    rw [show Nat.succ j = j + 1 from rfl, demoData_getD_succ, pyInt_zero,
      demoRect_at_far]
    norm_num
  have hproj : ∀ f : ℕ → ℕ × ℝ × RColor,
      ((List.range 256).map f).getD 128 (0, 0, (0, 0, 0)) = f 128 := by
    intro f
    rw [List.getD_eq_getElem?_getD, List.getElem?_map,
      List.getElem?_range (by norm_num : (128 : ℕ) < 256)]
    rfl
  simp only [sample_for_vtk, sample_for_vtk_data_driven, dataDrivenWidgetStep,
    List.foldl_cons, List.foldl_nil]
  rw [hrange, List.foldl_cons, hstep0, hrest, hproj]
  rw [show ((128 : ℕ) : ℤ) = (128 : ℤ) by norm_num, Function.update_same]

lemma sample_demo_shifted :
    (sample_for_vtk [demoRect] demoData demoData
      (List.map (· + 1) (List.range 5000))).getD 128 (0, 0, (0, 0, 0))
      = (128, 0, (1, 1, 1)) := by
  have hrest : ∀ acc, (List.map (· + 1) (List.range 5000)).foldl
      (dataDrivenPointStep demoRect demoData demoData) acc = acc := by
    intro acc
    apply foldl_pointStep_noop
    intro idx hidx
    obtain ⟨j, -, rfl⟩ := List.mem_map.mp hidx
    rw [demoData_getD_succ, pyInt_zero, demoRect_at_far]
    norm_num
  have hproj : ∀ f : ℕ → ℕ × ℝ × RColor,
      ((List.range 256).map f).getD 128 (0, 0, (0, 0, 0)) = f 128 := by
    intro f
    rw [List.getD_eq_getElem?_getD, List.getElem?_map,
      List.getElem?_range (by norm_num : (128 : ℕ) < 256)]
    rfl
  simp only [sample_for_vtk, sample_for_vtk_data_driven, dataDrivenWidgetStep,
    List.foldl_cons, List.foldl_nil]
  rw [hrest, hproj]

/-- Claim C5 (amended): `sample_for_vtk` (the data-driven strategy) is a
deterministic function of the widget/data state and the drawn index
subsample: any reordering of the same draw yields identical output, and
for datasets of at most 5000 points any two legal draws (which are then
permutations of the full index range) yield identical output — the sampler
is idempotent there.  For larger datasets, two calls draw different random
subsets and can differ (see the counterexample): the source seeds nothing
and re-rolls `np.random.choice` on every call. -/
theorem sampler_deterministic_given_draw (widgets : List TFWidget)
    (data gradient_data : List ℝ) (indices₁ indices₂ : List ℕ) :
    (indices₁.Perm indices₂ →
      sample_for_vtk widgets data gradient_data indices₁ =
        sample_for_vtk widgets data gradient_data indices₂) ∧
    (data.length ≤ 5000 → validDraw data.length indices₁ →
      validDraw data.length indices₂ →
      sample_for_vtk widgets data gradient_data indices₁ =
        sample_for_vtk widgets data gradient_data indices₂) := by
  constructor
  · intro hp
    unfold sample_for_vtk
    exact sample_data_driven_perm widgets data gradient_data hp
  · intro hlen h1 h2
    have hperm : ∀ indices, validDraw data.length indices →
        indices.Perm (List.range data.length) := by
      intro indices hI
      obtain ⟨hlenI, hnodup, hmem⟩ := hI
      have hsub : indices ⊆ List.range data.length :=
        fun i hi => List.mem_range.mpr (hmem i hi)
      refine (hnodup.subperm hsub).perm_of_length_le ?_
      rw [List.length_range, hlenI, min_eq_right hlen]
    unfold sample_for_vtk
    exact sample_data_driven_perm widgets data gradient_data
      ((hperm _ h1).trans (hperm _ h2).symm)

/-- Witness for C5: a concrete reordered draw on the demo dataset. -/
theorem sampler_deterministic_given_draw_witness :
    ([0, 1] : List ℕ).Perm [1, 0] ∧
    sample_for_vtk [demoRect] demoData demoData [0, 1] =
      sample_for_vtk [demoRect] demoData demoData [1, 0] :=
  ⟨List.Perm.swap 1 0 [],
   (sampler_deterministic_given_draw [demoRect] demoData demoData [0, 1] [1, 0]).1
     (List.Perm.swap 1 0 [])⟩

/-- Counterexample for C5 as frozen: on a 5001-point dataset two legal
draws of 5000 indices — one containing index 0 (the only point a widget
covers), one not — produce different 256-entry outputs, so calling the
sampler twice with unchanged curve/widget state need not yield identical
output. -/
theorem sampler_random_draw_counterexample :
    validDraw demoData.length (List.range 5000) ∧
    validDraw demoData.length (List.map (· + 1) (List.range 5000)) ∧
    sample_for_vtk [demoRect] demoData demoData (List.range 5000) ≠
      sample_for_vtk [demoRect] demoData demoData
        (List.map (· + 1) (List.range 5000)) := by
  have hlen : demoData.length = 5001 := by
    unfold demoData
    rw [List.length_cons, List.length_replicate]
  refine ⟨?_, ?_, ?_⟩
  · refine ⟨?_, List.nodup_range 5000, ?_⟩
    · rw [List.length_range, hlen]
      norm_num
    · intro i hi
      rw [hlen]
      have := List.mem_range.mp hi
      omega
  · refine ⟨?_, ?_, ?_⟩
    · rw [List.length_map, List.length_range, hlen]
      norm_num
    · exact (List.nodup_range 5000).map (fun a b h => by omega)
    · intro i hi
      rw [hlen]
      obtain ⟨j, hj, rfl⟩ := List.mem_map.mp hi
      have := List.mem_range.mp hj
      omega
  · intro heq
    have h1 := sample_demo_range
    rw [heq, sample_demo_shifted] at h1
    have h2 := congrArg (fun p : ℕ × ℝ × RColor => p.2.1) h1
    norm_num at h2

/-- Witness for C10: bounds instantiated at a concrete factory widget
list. -/
theorem combined_opacity_unit_interval_witness :
    (∀ w ∈ [demoRect], 0 ≤ w.base.opacity ∧ w.base.opacity ≤ 1 ∧ wfShape w) ∧
    ((0 ≤ calculate_combined_opacity [demoRect] 128 128 ∧
      calculate_combined_opacity [demoRect] 128 128 ≤ 1) ∧
     calculate_combined_opacity [] 128 128 = 0) :=
  ⟨by
    intro w hw
    simp only [List.mem_cons, List.not_mem_nil, or_false] at hw
    subst hw
    exact ⟨zero_le_one, le_refl 1,
      le_max_left 1 40, le_max_left 1 40, le_max_left 0 5⟩,
   combined_opacity_unit_interval [demoRect] 128 128 (by
    intro w hw
    simp only [List.mem_cons, List.not_mem_nil, or_false] at hw
    subst hw
    exact ⟨zero_le_one, le_refl 1,
      le_max_left 1 40, le_max_left 1 40, le_max_left 0 5⟩)⟩

end Volym
